import Mathlib

/-!
# Verification of the `pact_addr::pact` Move module (the Pact escrow engine)

Shallow embedding of the core commitment/escrow engine of the Pact
repository: the `pact` Move module (creation, challenge, group join,
resolution, cancellation), its settlement arithmetic and the protocol
Registry bookkeeping.

Modelling conventions, mirrored from the Move/Aptos semantics:

* All `u64` quantities are `Nat`s; every arithmetic operation the module
  itself performs on `u64`s that can abort (multiplication, the counter
  increment, the `stake + challenge_stake` event field, the stake-sum
  loops of the group path) is modelled with an explicit overflow check
  that yields `MErr.arithmetic` (the Move VM's ARITHMETIC_ERROR).
  Subtractions the module performs that provably cannot underflow
  (`stake_amount - stake_returned` with
  `stake_returned = stake_amount * 90 / 100`, and
  `total_stake - failed_stakes` with `failed_stakes ≤ total_stake`)
  are written as plain `Nat` subtraction.
* `Coin<AptosCoin>` values are their `u64` amounts. `coin::extract_all`
  reads the value and zeroes the field; `coin::extract c amt` aborts with
  the coin module's `EINSUFFICIENT_BALANCE` (canonically
  `error::invalid_argument 6`) when `amt` exceeds the held value;
  `coin::merge` and `coin::deposit` are treated as the external ledger
  primitive (their internal overflow is excluded by the coin supply
  invariant and is not part of this module's code).
* `coin::deposit` calls are recorded as an ordered disbursement list of
  `(recipient address, amount)` pairs returned by each operation;
  `coin::withdraw` from a signer is the external ledger collaborator and
  always provides the requested amount (escrow fields record it).
* Abort codes follow `std::error`: canonical code = category * 0x10000 +
  module reason code. An aborted operation produces `.error` and leaves
  no state: this is exactly Move's transactional rollback, so the
  placement of a status write before a later abort inside one entry
  function is unobservable.
* The state modelled is one creator's `UserPacts` store together with the
  `PactRegistry` singleton. `exists<UserPacts>(addr)` holds iff the pacts
  list is nonempty (the resource is created in the same atomic
  transaction that pushes the first pact, so an empty resource is
  unreachable); both the exists-check and the index bound check abort
  with `error::not_found E_PACT_NOT_FOUND`, in source order. Addresses
  are `Nat`s. Event emission is not modelled except for the u64
  arithmetic performed while building event fields, which can abort.
-/

namespace PactModule

/-! ## Constants (source lines 23–51) -/

def E_NOT_INITIALIZED : Nat := 1
def E_ALREADY_INITIALIZED : Nat := 2
def E_PACT_NOT_FOUND : Nat := 3
def E_PACT_NOT_ACTIVE : Nat := 4
def E_DEADLINE_NOT_REACHED : Nat := 5
def E_DEADLINE_ALREADY_PASSED : Nat := 6
def E_INSUFFICIENT_STAKE : Nat := 7
def E_INVALID_TOKEN_ADDRESS : Nat := 8
def E_BALANCE_DECREASED : Nat := 9
def E_UNAUTHORIZED : Nat := 10
def E_CHALLENGE_NOT_FOUND : Nat := 11
def E_ALREADY_CHALLENGED : Nat := 12
def E_GROUP_FULL : Nat := 13
def E_NOT_GROUP_PACT : Nat := 14
def E_ALREADY_IN_GROUP : Nat := 15

def MINIMUM_STAKE : Nat := 1000000
def SLASH_PERCENTAGE_RETURNED : Nat := 90
def SLASH_PERCENTAGE_PROTOCOL : Nat := 10

def STATUS_ACTIVE : Nat := 0
def STATUS_PASSED : Nat := 1
def STATUS_FAILED : Nat := 2

/-- Largest `u64` value: `2 ^ 64 - 1`. -/
def U64_MAX : Nat := 18446744073709551615

/-- `std::error` canonical code for category `invalid_argument` (0x1). -/
def errInvalidArgument (code : Nat) : Nat := 65536 + code

/-- `std::error` canonical code for category `invalid_state` (0x3). -/
def errInvalidState (code : Nat) : Nat := 196608 + code

/-- `std::error` canonical code for category `not_found` (0x6). -/
def errNotFound (code : Nat) : Nat := 393216 + code

/-- `std::error` canonical code for category `already_exists` (0x8). -/
def errAlreadyExists (code : Nat) : Nat := 524288 + code

/-- The Aptos `coin` module's `EINSUFFICIENT_BALANCE` reason code,
raised by `coin::extract` as `error::invalid_argument 6`. -/
def ECOIN_INSUFFICIENT_BALANCE : Nat := 6

/-- Outcome of an aborted Move transaction: either a `std::error`
canonical abort code, or the VM-level arithmetic error (overflow /
underflow), which carries no user abort code. -/
inductive MErr where
  | abortCode (code : Nat)
  | arithmetic
deriving DecidableEq, Repr

/-! ## Data model (source lines 57–135) -/

/-- `Challenge` resource (source lines 57–64). The escrowed coin is its
`u64` value. -/
structure Challenge where
  challenger : Nat
  challenge_stake : Nat
  escrowed_challenge : Nat
deriving DecidableEq, Repr, Inhabited

/-- `GroupMember` resource (source lines 70–79). -/
structure GroupMember where
  member : Nat
  stake_amount : Nat
  escrowed_stake : Nat
  start_balance : Nat
deriving DecidableEq, Repr, Inhabited

/-- `Pact` resource (source lines 86–109). The challenge is the source's
vector with 0 or 1 element. -/
structure Pact where
  creator : Nat
  token_address : Nat
  start_balance : Nat
  stake_amount : Nat
  deadline : Nat
  status : Nat
  escrowed_stake : Nat
  challenge : List Challenge
  is_group : Bool
  max_group_size : Nat
  group_members : List GroupMember
deriving DecidableEq, Repr, Inhabited

/-- The modelled global state: the `PactRegistry` singleton (counter and
fee pool; `initialized` is `exists<PactRegistry>(@pact_addr)`) together
with one creator's `UserPacts.pacts` vector. -/
structure Store where
  initialized : Bool
  pact_counter : Nat
  protocol_fees : Nat
  pacts : List Pact
deriving DecidableEq, Repr, Inhabited

/-- A `coin::deposit` performed by an operation: recipient address and
coin amount, in source call order. -/
def Deposit := Nat × Nat
deriving DecidableEq, Repr

/-- The pact stored at an index of the creator's store. -/
def pactAt (s : Store) (i : Nat) : Pact := s.pacts.getD i default

/-- Total of the amounts deposited by one operation. -/
def depositsTotal (ds : List Deposit) : Nat := (ds.map (fun d => d.2)).sum

/-- Escrowed coin value held in a pact's `challenge` vector. -/
def challengeEscrowTotal (p : Pact) : Nat :=
  (p.challenge.map (fun c => c.escrowed_challenge)).sum

/-- Escrowed coin value held by a pact's group members. -/
def memberEscrowTotal (p : Pact) : Nat :=
  (p.group_members.map (fun m => m.escrowed_stake)).sum

/-- All coin value escrowed inside one pact record: the solo escrow, the
challenge escrow and the members' escrows. -/
def escrowTotal (p : Pact) : Nat :=
  p.escrowed_stake + challengeEscrowTotal p + memberEscrowTotal p

/-! ## Group-resolution helpers (source lines 711–758) -/

/-- `check_all_members_passed` (source lines 711–726): every member's
reported balance is at least that member's own `start_balance`. The
source walks indices `0 ≤ i < len(group_members)` reading
`member_balances[i]`; the caller has already asserted the two lengths
equal, so the zip is the same traversal. -/
def check_all_members_passed (group_members : List GroupMember)
    (member_balances : List Nat) : Bool :=
  (group_members.zip member_balances).all
    (fun mb => decide (mb.1.start_balance ≤ mb.2))

/-- Accumulator loop of `calculate_total_stake` (source lines 729–739):
`total = total + member.stake_amount` with u64 overflow abort. -/
def sumStakesFrom (acc : Nat) : List GroupMember → Except MErr Nat
  | [] => .ok acc
  | m :: rest =>
      if acc + m.stake_amount ≤ U64_MAX then
        sumStakesFrom (acc + m.stake_amount) rest
      else .error .arithmetic

/-- `calculate_total_stake` (source lines 729–739). -/
def calculate_total_stake (group_members : List GroupMember) :
    Except MErr Nat :=
  sumStakesFrom 0 group_members

/-- Accumulator loop of `calculate_failed_stakes` (source lines
742–758): adds `member.stake_amount` for each member whose balance is
below their `start_balance`, with u64 overflow abort. Lengths are equal
at every call site (asserted by `resolve_group_pact`). -/
def sumFailedFrom (acc : Nat) :
    List GroupMember → List Nat → Except MErr Nat
  | [], _ => .ok acc
  | m :: rest, bs =>
      if bs.headD 0 < m.start_balance then
        if acc + m.stake_amount ≤ U64_MAX then
          sumFailedFrom (acc + m.stake_amount) rest bs.tail
        else .error .arithmetic
      else sumFailedFrom acc rest bs.tail

/-- `calculate_failed_stakes` (source lines 742–758). -/
def calculate_failed_stakes (group_members : List GroupMember)
    (member_balances : List Nat) : Except MErr Nat :=
  sumFailedFrom 0 group_members member_balances

/-- The per-member settlement loop of the some-failed branch of
`resolve_group_pact` (source lines 441–459): each passing member's
escrow is deposited back to them, each failing member's escrow is merged
into the protocol fee pool; every member's escrow field is zeroed by
`coin::extract_all`. Returns the updated member list, the total merged
into the fee pool, and the deposits in source order. -/
def settleFailedGroup :
    List GroupMember → List Nat → (List GroupMember × Nat × List Deposit)
  | [], _ => ([], 0, [])
  | m :: rest, bs =>
      let r := settleFailedGroup rest bs.tail
      if m.start_balance ≤ bs.headD 0 then
        ({ m with escrowed_stake := 0 } :: r.1, r.2.1,
          (m.member, m.escrowed_stake) :: r.2.2)
      else
        ({ m with escrowed_stake := 0 } :: r.1,
          m.escrowed_stake + r.2.1, r.2.2)

/-! ## Entry operations -/

/-- `create_pact` (source lines 232–287). Parameters in source order,
with the clock `now` (`timestamp::now_seconds()`) made explicit. The
withdrawn stake coin becomes the new pact's escrow. -/
def create_pact (now creator_addr token_address start_balance
    stake_amount deadline_seconds : Nat) (s : Store) :
    Except MErr (Store × List Deposit) :=
  if MINIMUM_STAKE ≤ stake_amount then
    if now < deadline_seconds then
      if s.initialized then
        -- coin::withdraw stake_amount (external ledger)
        if s.pact_counter + 1 ≤ U64_MAX then
          .ok ({ s with
                  pact_counter := s.pact_counter + 1,
                  pacts := s.pacts ++ [{
                    creator := creator_addr,
                    token_address := token_address,
                    start_balance := start_balance,
                    stake_amount := stake_amount,
                    deadline := deadline_seconds,
                    status := STATUS_ACTIVE,
                    escrowed_stake := stake_amount,
                    challenge := [],
                    is_group := false,
                    max_group_size := 0,
                    group_members := [] }] }, [])
        else .error .arithmetic
      else .error (.abortCode (errNotFound E_NOT_INITIALIZED))
    else .error (.abortCode (errInvalidArgument E_DEADLINE_ALREADY_PASSED))
  else .error (.abortCode (errInvalidArgument E_INSUFFICIENT_STAKE))

/-- `create_group_pact` (source lines 534–600). The creator is pushed as
the first group member; the pact-level solo escrow is `coin::zero`. -/
def create_group_pact (now creator_addr token_address start_balance
    stake_amount deadline_seconds max_group_size : Nat) (s : Store) :
    Except MErr (Store × List Deposit) :=
  if MINIMUM_STAKE ≤ stake_amount then
    if now < deadline_seconds then
      if 2 ≤ max_group_size then
        if s.initialized then
          if s.pact_counter + 1 ≤ U64_MAX then
            .ok ({ s with
                    pact_counter := s.pact_counter + 1,
                    pacts := s.pacts ++ [{
                      creator := creator_addr,
                      token_address := token_address,
                      start_balance := start_balance,
                      stake_amount := stake_amount,
                      deadline := deadline_seconds,
                      status := STATUS_ACTIVE,
                      escrowed_stake := 0,
                      challenge := [],
                      is_group := true,
                      max_group_size := max_group_size,
                      group_members := [{
                        member := creator_addr,
                        stake_amount := stake_amount,
                        escrowed_stake := stake_amount,
                        start_balance := start_balance }] }] }, [])
          else .error .arithmetic
        else .error (.abortCode (errNotFound E_NOT_INITIALIZED))
      else .error (.abortCode (errInvalidArgument E_INVALID_TOKEN_ADDRESS))
    else .error (.abortCode (errInvalidArgument E_DEADLINE_ALREADY_PASSED))
  else .error (.abortCode (errInvalidArgument E_INSUFFICIENT_STAKE))

/-- `join_group_pact` (source lines 609–664). -/
def join_group_pact (now member_addr _creator_addr pact_index
    stake_amount start_balance : Nat) (s : Store) :
    Except MErr (Store × List Deposit) :=
  if s.pacts ≠ [] then
    if MINIMUM_STAKE ≤ stake_amount then
      if pact_index < s.pacts.length then
        let pact := s.pacts.getD pact_index default
        if pact.is_group then
          if pact.status = STATUS_ACTIVE then
            if now < pact.deadline then
              if pact.group_members.length < pact.max_group_size then
                if ∀ m ∈ pact.group_members, m.member ≠ member_addr then
                  -- coin::withdraw stake_amount (external ledger)
                  .ok ({ s with pacts := s.pacts.set pact_index <|
                          { pact with group_members :=
                              pact.group_members ++ [{
                                member := member_addr,
                                stake_amount := stake_amount,
                                escrowed_stake := stake_amount,
                                start_balance := start_balance }] } }, [])
                else .error (.abortCode (errInvalidState E_ALREADY_IN_GROUP))
              else .error (.abortCode (errInvalidState E_GROUP_FULL))
            else .error (.abortCode (errInvalidState E_DEADLINE_ALREADY_PASSED))
          else .error (.abortCode (errInvalidState E_PACT_NOT_ACTIVE))
        else .error (.abortCode (errInvalidState E_NOT_GROUP_PACT))
      else .error (.abortCode (errNotFound E_PACT_NOT_FOUND))
    else .error (.abortCode (errInvalidArgument E_INSUFFICIENT_STAKE))
  else .error (.abortCode (errNotFound E_PACT_NOT_FOUND))

/-- `challenge_pact` (source lines 480–523). Source check order:
`exists<UserPacts>`, minimum stake, challenger ≠ creator, index bound,
status Active, now strictly before deadline, no challenge attached. -/
def challenge_pact (now challenger_addr creator_addr pact_index
    challenge_stake : Nat) (s : Store) :
    Except MErr (Store × List Deposit) :=
  if s.pacts ≠ [] then
    if MINIMUM_STAKE ≤ challenge_stake then
      if challenger_addr ≠ creator_addr then
        if pact_index < s.pacts.length then
          let pact := s.pacts.getD pact_index default
          if pact.status = STATUS_ACTIVE then
            if now < pact.deadline then
              if pact.challenge.length = 0 then
                -- coin::withdraw challenge_stake (external ledger)
                .ok ({ s with pacts := s.pacts.set pact_index <|
                        { pact with challenge := pact.challenge ++ [{
                            challenger := challenger_addr,
                            challenge_stake := challenge_stake,
                            escrowed_challenge := challenge_stake }] } }, [])
              else .error (.abortCode (errInvalidState E_ALREADY_CHALLENGED))
            else .error (.abortCode (errInvalidState E_DEADLINE_ALREADY_PASSED))
          else .error (.abortCode (errInvalidState E_PACT_NOT_ACTIVE))
        else .error (.abortCode (errNotFound E_PACT_NOT_FOUND))
      else .error (.abortCode (errInvalidArgument E_UNAUTHORIZED))
    else .error (.abortCode (errInvalidArgument E_INSUFFICIENT_STAKE))
  else .error (.abortCode (errNotFound E_PACT_NOT_FOUND))

/-- `resolve_group_pact` (source lines 403–470). Takes the borrowed pact
and the current protocol fee pool; returns the updated pact, the updated
fee pool and the deposits. `total_stake` and `failed_stakes` feed only
the resolution event, but their u64 summation loops run (and can abort)
before any branch; the event's `total_stake - failed_stakes` cannot
underflow because the failed stakes are a subset of all stakes. -/
def resolve_group_pact (pact : Pact) (member_balances : List Nat)
    (protocol_fees : Nat) : Except MErr (Pact × Nat × List Deposit) :=
  if member_balances.length = pact.group_members.length then
    match calculate_total_stake pact.group_members with
    | .error e => .error e
    | .ok _total_stake =>
        match calculate_failed_stakes pact.group_members member_balances with
        | .error e => .error e
        | .ok _failed_stakes =>
            if check_all_members_passed pact.group_members member_balances then
              .ok ({ pact with
                      status := STATUS_PASSED,
                      group_members := pact.group_members.map
                        (fun m => { m with escrowed_stake := 0 }) },
                   protocol_fees,
                   pact.group_members.map
                     (fun m => (m.member, m.escrowed_stake)))
            else
              let r := settleFailedGroup pact.group_members member_balances
              .ok ({ pact with
                      status := STATUS_FAILED,
                      group_members := r.1 },
                   protocol_fees + r.2.1, r.2.2)
  else .error (.abortCode (errInvalidArgument E_INVALID_TOKEN_ADDRESS))

/-- `resolve_pact` (source lines 301–400). Permissionless; `now` is
`timestamp::now_seconds()`. Group pacts branch to `resolve_group_pact`
and return early. With a challenge attached the outcome is
winner-take-all (the challenge struct stays in the vector with its coin
extracted); with no challenge a pass returns the full escrow and a fail
runs the 90/100 floor split, the remainder merged into the fee pool.
The final status write (source lines 385–389) is `passed ? PASSED :
FAILED` in every non-group branch. -/
def resolve_pact (now creator_addr pact_index current_balance : Nat)
    (member_balances : List Nat) (s : Store) :
    Except MErr (Store × List Deposit) :=
  if s.pacts ≠ [] then
    if pact_index < s.pacts.length then
      let pact := s.pacts.getD pact_index default
      if pact.status = STATUS_ACTIVE then
        if pact.deadline ≤ now then
          if pact.is_group then
            match resolve_group_pact pact member_balances s.protocol_fees with
            | .error e => .error e
            | .ok r =>
                .ok ({ s with
                        pacts := s.pacts.set pact_index r.1,
                        protocol_fees := r.2.1 }, r.2.2)
          else
            if pact.start_balance ≤ current_balance then
              -- passed
              if pact.challenge.length ≠ 0 then
                let challenge := pact.challenge.headD default
                -- deposits: challenger's escrow then creator's own escrow,
                -- both to the creator (source lines 340–344); the event
                -- field stake_returned = stake_amount + challenge_stake is
                -- u64 addition (source line 345)
                if pact.stake_amount + challenge.challenge_stake ≤ U64_MAX then
                  .ok ({ s with pacts := s.pacts.set pact_index <|
                          { pact with
                              status := STATUS_PASSED,
                              escrowed_stake := 0,
                              challenge :=
                                { challenge with escrowed_challenge := 0 }
                                  :: pact.challenge.tail } },
                       [(creator_addr, challenge.escrowed_challenge),
                        (creator_addr, pact.escrowed_stake)])
                else .error .arithmetic
              else
                .ok ({ s with pacts := s.pacts.set pact_index <|
                        { pact with
                            status := STATUS_PASSED,
                            escrowed_stake := 0 } },
                     [(creator_addr, pact.escrowed_stake)])
            else
              -- failed
              if pact.challenge.length ≠ 0 then
                let challenge := pact.challenge.headD default
                -- deposits: creator's escrow then challenger's own escrow,
                -- both to the challenger (source lines 349–352)
                .ok ({ s with pacts := s.pacts.set pact_index <|
                        { pact with
                            status := STATUS_FAILED,
                            escrowed_stake := 0,
                            challenge :=
                              { challenge with escrowed_challenge := 0 }
                                :: pact.challenge.tail } },
                     [(challenge.challenger, pact.escrowed_stake),
                      (challenge.challenger, challenge.escrowed_challenge)])
              else
                -- stake_returned = stake_amount * 90 / 100 (u64 mul aborts
                -- on overflow, source line 370); protocol_fee =
                -- stake_amount - stake_returned cannot underflow
                if pact.stake_amount * SLASH_PERCENTAGE_RETURNED ≤ U64_MAX then
                  let stake_returned :=
                    pact.stake_amount * SLASH_PERCENTAGE_RETURNED / 100
                  let protocol_fee := pact.stake_amount - stake_returned
                  -- coin::extract protocol_fee from the escrowed coin
                  if protocol_fee ≤ pact.escrowed_stake then
                    .ok ({ s with
                            pacts := s.pacts.set pact_index <|
                              { pact with
                                  status := STATUS_FAILED,
                                  escrowed_stake := 0 },
                            protocol_fees := s.protocol_fees + protocol_fee },
                         [(creator_addr, pact.escrowed_stake - protocol_fee)])
                  else .error (.abortCode
                        (errInvalidArgument ECOIN_INSUFFICIENT_BALANCE))
                else .error .arithmetic
        else .error (.abortCode (errInvalidState E_DEADLINE_NOT_REACHED))
      else .error (.abortCode (errInvalidState E_PACT_NOT_ACTIVE))
    else .error (.abortCode (errNotFound E_PACT_NOT_FOUND))
  else .error (.abortCode (errNotFound E_PACT_NOT_FOUND))

/-- `cancel_pact` (source lines 668–708). Creator-only (the store is the
signer's own); no deadline check; unconditional 90/100 floor split of
`stake_amount` drawn from the solo escrow coin via `coin::extract`. -/
def cancel_pact (creator_addr pact_index : Nat) (s : Store) :
    Except MErr (Store × List Deposit) :=
  if s.pacts ≠ [] then
    if pact_index < s.pacts.length then
      let pact := s.pacts.getD pact_index default
      if pact.status = STATUS_ACTIVE then
        if pact.stake_amount * SLASH_PERCENTAGE_RETURNED ≤ U64_MAX then
          let stake_returned :=
            pact.stake_amount * SLASH_PERCENTAGE_RETURNED / 100
          let protocol_fee := pact.stake_amount - stake_returned
          if protocol_fee ≤ pact.escrowed_stake then
            .ok ({ s with
                    pacts := s.pacts.set pact_index
                      { pact with
                          status := STATUS_FAILED,
                          escrowed_stake := 0 },
                    protocol_fees := s.protocol_fees + protocol_fee },
                 [(creator_addr, pact.escrowed_stake - protocol_fee)])
          else .error (.abortCode
                (errInvalidArgument ECOIN_INSUFFICIENT_BALANCE))
        else .error .arithmetic
      else .error (.abortCode (errNotFound E_PACT_NOT_FOUND))
    else .error (.abortCode (errNotFound E_PACT_NOT_FOUND))
  else .error (.abortCode (errNotFound E_PACT_NOT_FOUND))

/-! ## Reachable states -/

/-- The store right after `initialize` (source lines 190–207): counter
zero, empty fee pool, no pacts yet. -/
def initStore : Store :=
  { initialized := true, pact_counter := 0, protocol_fees := 0, pacts := [] }

/-- One successful entry-function invocation against the store, for any
caller-chosen arguments and clock value. -/
inductive Step : Store → Store → Prop where
  | create : ∀ now a tok sb st dl s s' ds,
      create_pact now a tok sb st dl s = .ok (s', ds) → Step s s'
  | create_group : ∀ now a tok sb st dl mx s s' ds,
      create_group_pact now a tok sb st dl mx s = .ok (s', ds) → Step s s'
  | join : ∀ now ma ca i st sb s s' ds,
      join_group_pact now ma ca i st sb s = .ok (s', ds) → Step s s'
  | challenge : ∀ now ch ca i st s s' ds,
      challenge_pact now ch ca i st s = .ok (s', ds) → Step s s'
  | resolve : ∀ now ca i cb mb s s' ds,
      resolve_pact now ca i cb mb s = .ok (s', ds) → Step s s'
  | cancel : ∀ ca i s s' ds,
      cancel_pact ca i s = .ok (s', ds) → Step s s'

/-- Stores reachable from the freshly initialized store by successful
entry-function invocations. -/
inductive Reach : Store → Prop where
  | init : Reach initStore
  | step : ∀ s s', Reach s → Step s s' → Reach s'

/-! ## Helper lemmas -/

theorem getD_set_self {α : Type} [Inhabited α] {l : List α} {i : Nat}
    (p : α) (h : i < l.length) : (l.set i p).getD i default = p := by
  simp [List.getD_eq_getElem?_getD, List.getElem?_set_self, h]

theorem getD_set_ne {α : Type} [Inhabited α] {l : List α} {i j : Nat}
    (p : α) (h : j ≠ i) : (l.set j p).getD i default = l.getD i default := by
  simp [List.getD_eq_getElem?_getD, List.getElem?_set_ne, h]

theorem getD_append_lt {α : Type} [Inhabited α] {l : List α} {i : Nat}
    (p : α) (h : i < l.length) : (l ++ [p]).getD i default = l.getD i default := by
  simp [List.getD_eq_getElem?_getD, List.getElem?_append, h]

/-- The 90/100 floor split never returns more than the stake. -/
theorem slash_returned_le (st : Nat) :
    st * SLASH_PERCENTAGE_RETURNED / 100 ≤ st := by
  have h : st * SLASH_PERCENTAGE_RETURNED ≤ st * 100 :=
    Nat.mul_le_mul_left st (by norm_num [SLASH_PERCENTAGE_RETURNED])
  calc st * SLASH_PERCENTAGE_RETURNED / 100 ≤ st * 100 / 100 :=
        Nat.div_le_div_right h
    _ = st := Nat.mul_div_cancel st (by norm_num)

/-- For a positive stake the 90/100 floor split keeps a positive fee. -/
theorem slash_fee_pos {st : Nat} (h : 1 ≤ st) :
    0 < st - st * SLASH_PERCENTAGE_RETURNED / 100 := by
  have h90 : st * SLASH_PERCENTAGE_RETURNED = st * 90 := rfl
  have hlt : st * SLASH_PERCENTAGE_RETURNED / 100 < st := by
    rw [Nat.div_lt_iff_lt_mul (by norm_num : (0:Nat) < 100), h90]
    omega
  omega

/-! ## C4: solo threshold correctness -/

/-- **C4.** For every solo pact with no challenge attached, resolving at
or after the deadline with `current_balance ≥ start_balance` sets status
to Passed and returns the full `stake_amount` to the creator with zero
protocol fee; resolving with `current_balance < start_balance` sets
status to Failed, returns `⌊stake_amount * 90 / 100⌋` to the creator and
adds the remainder of the stake to the protocol-fee pool. (The failed
branch additionally requires `stake_amount * 90` to fit in a u64;
outside that bound the operation aborts — see C10.) -/
theorem c4_solo_threshold
    (now creator_addr pact_index current_balance : Nat)
    (member_balances : List Nat) (s : Store)
    (hlen : pact_index < s.pacts.length)
    (hsolo : (pactAt s pact_index).is_group = false)
    (hnochal : (pactAt s pact_index).challenge = [])
    (hactive : (pactAt s pact_index).status = STATUS_ACTIVE)
    (hdl : (pactAt s pact_index).deadline ≤ now)
    (hesc : (pactAt s pact_index).escrowed_stake =
      (pactAt s pact_index).stake_amount) :
    ((pactAt s pact_index).start_balance ≤ current_balance →
       resolve_pact now creator_addr pact_index current_balance
           member_balances s =
         .ok ({ s with pacts := s.pacts.set pact_index <|
                  { pactAt s pact_index with
                      status := STATUS_PASSED, escrowed_stake := 0 } },
              [(creator_addr, (pactAt s pact_index).stake_amount)])) ∧
    (current_balance < (pactAt s pact_index).start_balance →
     (pactAt s pact_index).stake_amount * SLASH_PERCENTAGE_RETURNED ≤
       U64_MAX →
       resolve_pact now creator_addr pact_index current_balance
           member_balances s =
         .ok ({ s with
                 pacts := s.pacts.set pact_index <|
                   { pactAt s pact_index with
                       status := STATUS_FAILED, escrowed_stake := 0 },
                 protocol_fees := s.protocol_fees +
                   ((pactAt s pact_index).stake_amount -
                     (pactAt s pact_index).stake_amount *
                       SLASH_PERCENTAGE_RETURNED / 100) },
              [(creator_addr, (pactAt s pact_index).stake_amount *
                  SLASH_PERCENTAGE_RETURNED / 100)])) := by
  have hne : s.pacts ≠ [] := by
    intro h0
    rw [h0] at hlen
    simp at hlen
  constructor
  · intro hpass
    simp only [resolve_pact, pactAt] at *
    set p := s.pacts.getD pact_index default with hp
    simp [hne, hlen, hactive, hdl, hsolo, hnochal, hpass, hesc]
  · intro hfail hbound
    have hnpass : ¬ ((pactAt s pact_index).start_balance ≤ current_balance) :=
      Nat.not_le.mpr hfail
    have hret := slash_returned_le (pactAt s pact_index).stake_amount
    have hfee : (pactAt s pact_index).stake_amount -
        (pactAt s pact_index).stake_amount * SLASH_PERCENTAGE_RETURNED / 100 ≤
        (pactAt s pact_index).escrowed_stake := by
      rw [hesc]; exact Nat.sub_le _ _
    simp only [resolve_pact, pactAt] at *
    set p := s.pacts.getD pact_index default with hp
    simp [hne, hlen, hactive, hdl, hsolo, hnochal, hnpass, hbound, hfee,
      hesc, Nat.sub_sub_self hret]

/-- Witness for C4 at a concrete store: one active unchallenged solo
pact with stake 1000000 and threshold 10, resolved once passing
(balance 50) and once failing (balance 3). -/
def soloPactW : Pact :=
  { creator := 7, token_address := 3, start_balance := 10,
    stake_amount := 1000000, deadline := 100, status := 0,
    escrowed_stake := 1000000, challenge := [], is_group := false,
    max_group_size := 0, group_members := [] }

def soloStoreW : Store :=
  { initialized := true, pact_counter := 1, protocol_fees := 0,
    pacts := [soloPactW] }

theorem c4_solo_threshold_witness :
    resolve_pact 100 7 0 50 [] soloStoreW =
      .ok ({ soloStoreW with pacts := soloStoreW.pacts.set 0 <|
               { pactAt soloStoreW 0 with
                   status := STATUS_PASSED, escrowed_stake := 0 } },
           [(7, (pactAt soloStoreW 0).stake_amount)]) ∧
    resolve_pact 100 7 0 3 [] soloStoreW =
      .ok ({ soloStoreW with
              pacts := soloStoreW.pacts.set 0 <|
                { pactAt soloStoreW 0 with
                    status := STATUS_FAILED, escrowed_stake := 0 },
              protocol_fees := soloStoreW.protocol_fees +
                ((pactAt soloStoreW 0).stake_amount -
                  (pactAt soloStoreW 0).stake_amount *
                    SLASH_PERCENTAGE_RETURNED / 100) },
           [(7, (pactAt soloStoreW 0).stake_amount *
               SLASH_PERCENTAGE_RETURNED / 100)]) :=
  ⟨(c4_solo_threshold 100 7 0 50 [] soloStoreW (by decide) (by decide)
      (by decide) (by decide) (by decide) (by decide)).1 (by decide),
   (c4_solo_threshold 100 7 0 3 [] soloStoreW (by decide) (by decide)
      (by decide) (by decide) (by decide) (by decide)).2 (by decide)
      (by decide)⟩

/-! ## C5: challenge precedence (winner-take-all) -/

/-- **C5.** For every solo pact with a challenge attached, resolution is
strictly winner-take-all and the 90/10 slash rule is never applied: on
`current_balance ≥ start_balance` the creator receives the challenger's
full escrow and their own escrow with zero protocol fee (the fee pool is
untouched); on `current_balance < start_balance` the challenger receives
the creator's entire escrow and their own stake back, the creator
receives nothing, and the protocol fee is zero. (The passed branch's
event field `stake_amount + challenge_stake` is u64 addition, hence the
bound hypothesis there.) -/
theorem c5_challenge_winner_take_all
    (now creator_addr pact_index current_balance : Nat)
    (member_balances : List Nat) (s : Store) (c : Challenge)
    (hlen : pact_index < s.pacts.length)
    (hsolo : (pactAt s pact_index).is_group = false)
    (hchal : (pactAt s pact_index).challenge = [c])
    (hactive : (pactAt s pact_index).status = STATUS_ACTIVE)
    (hdl : (pactAt s pact_index).deadline ≤ now) :
    ((pactAt s pact_index).start_balance ≤ current_balance →
     (pactAt s pact_index).stake_amount + c.challenge_stake ≤ U64_MAX →
       resolve_pact now creator_addr pact_index current_balance
           member_balances s =
         .ok ({ s with pacts := s.pacts.set pact_index <|
                  { pactAt s pact_index with
                      status := STATUS_PASSED, escrowed_stake := 0,
                      challenge := [{ c with escrowed_challenge := 0 }] } },
              [(creator_addr, c.escrowed_challenge),
               (creator_addr, (pactAt s pact_index).escrowed_stake)])) ∧
    (current_balance < (pactAt s pact_index).start_balance →
       resolve_pact now creator_addr pact_index current_balance
           member_balances s =
         .ok ({ s with pacts := s.pacts.set pact_index <|
                  { pactAt s pact_index with
                      status := STATUS_FAILED, escrowed_stake := 0,
                      challenge := [{ c with escrowed_challenge := 0 }] } },
              [(c.challenger, (pactAt s pact_index).escrowed_stake),
               (c.challenger, c.escrowed_challenge)])) := by
  have hne : s.pacts ≠ [] := by
    intro h0
    rw [h0] at hlen
    simp at hlen
  constructor
  · intro hpass hadd
    simp only [resolve_pact, pactAt] at *
    set p := s.pacts.getD pact_index default with hp
    simp [hne, hlen, hactive, hdl, hsolo, hchal, hpass, hadd]
  · intro hfail
    have hnpass : ¬ ((pactAt s pact_index).start_balance ≤ current_balance) :=
      Nat.not_le.mpr hfail
    simp only [resolve_pact, pactAt] at *
    set p := s.pacts.getD pact_index default with hp
    simp [hne, hlen, hactive, hdl, hsolo, hchal, hnpass]

/-- Witness for C5: the concrete solo pact of `soloStoreW` with a
challenge of 2000000 by address 9 attached, resolved both ways. -/
def chalPactW : Pact :=
  { soloPactW with challenge := [{ challenger := 9,
                                   challenge_stake := 2000000,
                                   escrowed_challenge := 2000000 }] }

def chalStoreW : Store :=
  { initialized := true, pact_counter := 1, protocol_fees := 0,
    pacts := [chalPactW] }

theorem c5_challenge_winner_take_all_witness :
    resolve_pact 100 7 0 50 [] chalStoreW =
      .ok ({ chalStoreW with pacts := chalStoreW.pacts.set 0 <|
               { pactAt chalStoreW 0 with
                   status := STATUS_PASSED, escrowed_stake := 0,
                   challenge := [{ challenger := 9,
                                     challenge_stake := 2000000,
                                     escrowed_challenge := 0 }] } },
           [(7, 2000000), (7, (pactAt chalStoreW 0).escrowed_stake)]) ∧
    resolve_pact 100 7 0 3 [] chalStoreW =
      .ok ({ chalStoreW with pacts := chalStoreW.pacts.set 0 <|
               { pactAt chalStoreW 0 with
                   status := STATUS_FAILED, escrowed_stake := 0,
                   challenge := [{ challenger := 9,
                                     challenge_stake := 2000000,
                                     escrowed_challenge := 0 }] } },
           [(9, (pactAt chalStoreW 0).escrowed_stake), (9, 2000000)]) :=
  ⟨(c5_challenge_winner_take_all 100 7 0 50 [] chalStoreW
      { challenger := 9, challenge_stake := 2000000,
        escrowed_challenge := 2000000 }
      (by decide) (by decide) (by decide) (by decide) (by decide)).1
      (by decide) (by decide),
   (c5_challenge_winner_take_all 100 7 0 3 [] chalStoreW
      { challenger := 9, challenge_stake := 2000000,
        escrowed_challenge := 2000000 }
      (by decide) (by decide) (by decide) (by decide) (by decide)).2
      (by decide)⟩

/-! ## C8: cancellation is an unconditional forced failure -/

/-- **C8.** For every Active solo pact, `cancel_pact` by the creator
succeeds with no deadline requirement (the operation takes no clock
input at all) and forces failure: status becomes Failed,
`⌊stake_amount * 90 / 100⌋` is deposited back to the creator, and the
remainder joins the protocol-fee pool — the same 90/10 split as a solo
failed resolution. (Requires `stake_amount * 90` to fit in a u64;
outside that bound the operation aborts — see C10.) -/
theorem c8_cancel_forced_failure
    (creator_addr pact_index : Nat) (s : Store)
    (hlen : pact_index < s.pacts.length)
    (_hsolo : (pactAt s pact_index).is_group = false)
    (hactive : (pactAt s pact_index).status = STATUS_ACTIVE)
    (hesc : (pactAt s pact_index).escrowed_stake =
      (pactAt s pact_index).stake_amount)
    (hbound : (pactAt s pact_index).stake_amount *
      SLASH_PERCENTAGE_RETURNED ≤ U64_MAX) :
    cancel_pact creator_addr pact_index s =
      .ok ({ s with
              pacts := s.pacts.set pact_index <|
                { pactAt s pact_index with
                    status := STATUS_FAILED, escrowed_stake := 0 },
              protocol_fees := s.protocol_fees +
                ((pactAt s pact_index).stake_amount -
                  (pactAt s pact_index).stake_amount *
                    SLASH_PERCENTAGE_RETURNED / 100) },
           [(creator_addr, (pactAt s pact_index).stake_amount *
               SLASH_PERCENTAGE_RETURNED / 100)]) := by
  have hne : s.pacts ≠ [] := by
    intro h0
    rw [h0] at hlen
    simp at hlen
  have hret := slash_returned_le (pactAt s pact_index).stake_amount
  have hfee : (pactAt s pact_index).stake_amount -
      (pactAt s pact_index).stake_amount * SLASH_PERCENTAGE_RETURNED / 100 ≤
      (pactAt s pact_index).escrowed_stake := by
    rw [hesc]; exact Nat.sub_le _ _
  simp only [cancel_pact, pactAt] at *
  set p := s.pacts.getD pact_index default with hp
  simp [hne, hlen, hactive, hbound, hfee, hesc, Nat.sub_sub_self hret]

theorem c8_cancel_forced_failure_witness :
    cancel_pact 7 0 soloStoreW =
      .ok ({ soloStoreW with
              pacts := soloStoreW.pacts.set 0 <|
                { pactAt soloStoreW 0 with
                    status := STATUS_FAILED, escrowed_stake := 0 },
              protocol_fees := soloStoreW.protocol_fees +
                ((pactAt soloStoreW 0).stake_amount -
                  (pactAt soloStoreW 0).stake_amount *
                    SLASH_PERCENTAGE_RETURNED / 100) },
           [(7, (pactAt soloStoreW 0).stake_amount *
               SLASH_PERCENTAGE_RETURNED / 100)]) :=
  c8_cancel_forced_failure 7 0 soloStoreW (by decide) (by decide)
    (by decide) (by decide) (by decide)

/-! ## C9: cancellation never touches group members' escrows -/

/-- **C9.** A cancellation attempt on a group pact operates only on the
pact's solo `escrowed_stake` field: whenever it succeeds, every group
member record (in particular each member's individually escrowed stake)
is unchanged and the entire amount disbursed — creator deposit plus fee
pool increase — is drawn from the solo escrow field alone (which is zero
for group pacts as created); whenever it aborts, no state changes at
all. -/
theorem c9_cancel_group_frame
    (creator_addr pact_index : Nat) (s s' : Store) (ds : List Deposit)
    (_hgroup : (pactAt s pact_index).is_group = true)
    (hok : cancel_pact creator_addr pact_index s = .ok (s', ds)) :
    (pactAt s' pact_index).group_members =
      (pactAt s pact_index).group_members ∧
    depositsTotal ds + (s'.protocol_fees - s.protocol_fees) =
      (pactAt s pact_index).escrowed_stake := by
  simp only [cancel_pact] at hok
  split_ifs at hok with h1 h2 h3 h4 h5
  · injection hok with hok
    injection hok with hs hds
    subst hs hds
    constructor
    · simp only [pactAt]
      rw [getD_set_self _ h2]
    · simp only [pactAt, depositsTotal, List.map, List.sum_cons, List.sum_nil]
      have := slash_returned_le (s.pacts.getD pact_index default).stake_amount
      omega

/-- Witness for C9 at a concrete (syntactically valid) store holding an
Active group pact whose solo escrow field is 100: cancellation succeeds,
members' escrows are untouched, and the disbursed total is the solo
escrow. -/
def groupPactW : Pact :=
  { creator := 7, token_address := 3, start_balance := 10,
    stake_amount := 100, deadline := 100, status := 0,
    escrowed_stake := 100, challenge := [], is_group := true,
    max_group_size := 2,
    group_members := [{ member := 7, stake_amount := 100,
                        escrowed_stake := 100, start_balance := 10 }] }

def groupStoreW : Store :=
  { initialized := true, pact_counter := 1, protocol_fees := 0,
    pacts := [groupPactW] }

theorem c9_cancel_group_frame_witness :
    (pactAt ({ groupStoreW with
        pacts := groupStoreW.pacts.set 0 <|
          { pactAt groupStoreW 0 with
              status := STATUS_FAILED, escrowed_stake := 0 },
        protocol_fees := 10 } : Store) 0).group_members =
      (pactAt groupStoreW 0).group_members ∧
    depositsTotal [(7, 90)] + (10 - groupStoreW.protocol_fees) =
      (pactAt groupStoreW 0).escrowed_stake :=
  c9_cancel_group_frame 7 0 groupStoreW _ [(7, 90)] (by decide) rfl

/-! ## C10: u64 overflow bound on the 90/10 split -/

/-- **C10.** The 90/10 split multiplies `stake_amount` by
`SLASH_PERCENTAGE_RETURNED = 90` in u64: for any Active solo pact whose
`stake_amount` exceeds `⌊(2^64 - 1) / 90⌋`, both the failed-resolution
path (no challenge, balance below threshold, deadline reached) and the
cancellation path abort with arithmetic overflow, so the split is
performed only for stakes at or below that bound. The last conjunct
identifies the bound: `stake > ⌊U64_MAX / 90⌋ ↔ stake * 90 > U64_MAX`. -/
theorem c10_slash_overflow_bound :
    (∀ (now creator_addr pact_index current_balance : Nat)
       (member_balances : List Nat) (s : Store),
       pact_index < s.pacts.length →
       (pactAt s pact_index).status = STATUS_ACTIVE →
       (pactAt s pact_index).deadline ≤ now →
       (pactAt s pact_index).is_group = false →
       (pactAt s pact_index).challenge = [] →
       current_balance < (pactAt s pact_index).start_balance →
       U64_MAX / SLASH_PERCENTAGE_RETURNED <
         (pactAt s pact_index).stake_amount →
       resolve_pact now creator_addr pact_index current_balance
         member_balances s = .error .arithmetic) ∧
    (∀ (creator_addr pact_index : Nat) (s : Store),
       pact_index < s.pacts.length →
       (pactAt s pact_index).status = STATUS_ACTIVE →
       U64_MAX / SLASH_PERCENTAGE_RETURNED <
         (pactAt s pact_index).stake_amount →
       cancel_pact creator_addr pact_index s = .error .arithmetic) ∧
    (∀ st : Nat, U64_MAX / SLASH_PERCENTAGE_RETURNED < st ↔
       U64_MAX < st * SLASH_PERCENTAGE_RETURNED) := by
  have hdiv : ∀ st : Nat, U64_MAX / SLASH_PERCENTAGE_RETURNED < st ↔
      U64_MAX < st * SLASH_PERCENTAGE_RETURNED := by
    intro st
    exact Nat.div_lt_iff_lt_mul (by norm_num [SLASH_PERCENTAGE_RETURNED])
  refine ⟨?_, ?_, hdiv⟩
  · intro now creator_addr pact_index current_balance member_balances s
      hlen hactive hdl hsolo hnochal hfail hbig
    have hne : s.pacts ≠ [] := by
      intro h0
      rw [h0] at hlen
      simp at hlen
    have hnpass : ¬ ((pactAt s pact_index).start_balance ≤ current_balance) :=
      Nat.not_le.mpr hfail
    have hnbound : ¬ ((pactAt s pact_index).stake_amount *
        SLASH_PERCENTAGE_RETURNED ≤ U64_MAX) :=
      Nat.not_le.mpr ((hdiv _).mp hbig)
    simp only [resolve_pact, pactAt] at *
    set p := s.pacts.getD pact_index default with hp
    simp [hne, hlen, hactive, hdl, hsolo, hnochal, hnpass, hnbound]
  · intro creator_addr pact_index s hlen hactive hbig
    have hne : s.pacts ≠ [] := by
      intro h0
      rw [h0] at hlen
      simp at hlen
    have hnbound : ¬ ((pactAt s pact_index).stake_amount *
        SLASH_PERCENTAGE_RETURNED ≤ U64_MAX) :=
      Nat.not_le.mpr ((hdiv _).mp hbig)
    simp only [cancel_pact, pactAt] at *
    set p := s.pacts.getD pact_index default with hp
    simp [hne, hlen, hactive, hnbound]

/-- Witness for C10: a solo pact staking the full u64 range
(`stake_amount = U64_MAX`) aborts on both paths, while the bound itself
is sharp. -/
def bigPactW : Pact :=
  { soloPactW with
      stake_amount := 18446744073709551615,
      escrowed_stake := 18446744073709551615 }

def bigStoreW : Store :=
  { initialized := true, pact_counter := 1, protocol_fees := 0,
    pacts := [bigPactW] }

theorem c10_slash_overflow_bound_witness :
    resolve_pact 100 7 0 3 [] bigStoreW = .error .arithmetic ∧
    cancel_pact 7 0 bigStoreW = .error .arithmetic ∧
    (U64_MAX / SLASH_PERCENTAGE_RETURNED < U64_MAX ↔
      U64_MAX < U64_MAX * SLASH_PERCENTAGE_RETURNED) :=
  ⟨c10_slash_overflow_bound.1 100 7 0 3 [] bigStoreW (by decide) (by decide)
     (by decide) (by decide) (by decide) (by decide) (by decide),
   c10_slash_overflow_bound.2.1 7 0 bigStoreW (by decide) (by decide)
     (by decide),
   c10_slash_overflow_bound.2.2 U64_MAX⟩

/-! ## Group-settlement lemmas -/

theorem settleFailedGroup_members (ms : List GroupMember) (bs : List Nat) :
    (settleFailedGroup ms bs).1 =
      ms.map (fun m => { m with escrowed_stake := 0 }) := by
  induction ms generalizing bs with
  | nil => simp [settleFailedGroup]
  | cons m rest ih =>
      simp only [settleFailedGroup, List.map]
      split_ifs <;> simp [ih]

theorem settleFailedGroup_conservation (ms : List GroupMember)
    (bs : List Nat) :
    depositsTotal (settleFailedGroup ms bs).2.2 +
      (settleFailedGroup ms bs).2.1 =
      (ms.map (fun m => m.escrowed_stake)).sum := by
  induction ms generalizing bs with
  | nil => simp [settleFailedGroup, depositsTotal]
  | cons m rest ih =>
      have hrec := ih bs.tail
      simp only [settleFailedGroup, List.map, List.sum_cons]
      split_ifs with h
      · simp only [depositsTotal, List.map, List.sum_cons]
        simp only [depositsTotal] at hrec
        omega
      · simp only [depositsTotal] at hrec ⊢
        omega

theorem settleFailedGroup_deposits (ms : List GroupMember) (bs : List Nat)
    (h : ms.length = bs.length) :
    (settleFailedGroup ms bs).2.2 =
      ((ms.zip bs).filter (fun x => decide (x.1.start_balance ≤ x.2))).map
        (fun x => (x.1.member, x.1.escrowed_stake)) := by
  induction ms generalizing bs with
  | nil => simp [settleFailedGroup]
  | cons m rest ih =>
      cases bs with
      | nil => simp at h
      | cons b bs2 =>
          have hrec := ih bs2 (by simpa using h)
          simp only [settleFailedGroup, List.zip_cons_cons, List.filter,
            List.headD, List.tail]
          split_ifs with hmb
          · simp [hmb, hrec, List.zip]
          · simp [hmb, hrec, List.zip]

theorem settleFailedGroup_fees (ms : List GroupMember) (bs : List Nat)
    (h : ms.length = bs.length) :
    (settleFailedGroup ms bs).2.1 =
      (((ms.zip bs).filter (fun x => decide (x.2 < x.1.start_balance))).map
        (fun x => x.1.escrowed_stake)).sum := by
  induction ms generalizing bs with
  | nil => simp [settleFailedGroup]
  | cons m rest ih =>
      cases bs with
      | nil => simp at h
      | cons b bs2 =>
          have hrec := ih bs2 (by simpa using h)
          simp only [settleFailedGroup, List.zip_cons_cons, List.filter,
            List.headD, List.tail]
          split_ifs with hmb
          · have : ¬ (b < m.start_balance) := Nat.not_lt.mpr hmb
            simp [this, hrec, List.zip]
          · have : b < m.start_balance := Nat.not_le.mp hmb
            simp [this, hrec, List.zip]

theorem sumStakesFrom_ok (ms : List GroupMember) :
    ∀ acc : Nat, acc + (ms.map (fun m => m.stake_amount)).sum ≤ U64_MAX →
      sumStakesFrom acc ms =
        .ok (acc + (ms.map (fun m => m.stake_amount)).sum) := by
  induction ms with
  | nil => intro acc h; simp [sumStakesFrom]
  | cons m rest ih =>
      intro acc h
      simp only [List.map, List.sum_cons] at h ⊢
      have h1 : acc + m.stake_amount ≤ U64_MAX := by omega
      rw [sumStakesFrom, if_pos h1, ih (acc + m.stake_amount) (by omega)]
      rw [Nat.add_assoc]

theorem sumFailedFrom_ok_ex (ms : List GroupMember) :
    ∀ (bs : List Nat) (acc : Nat),
      acc + (ms.map (fun m => m.stake_amount)).sum ≤ U64_MAX →
      ∃ f, sumFailedFrom acc ms bs = .ok f := by
  induction ms with
  | nil => intro bs acc h; exact ⟨acc, rfl⟩
  | cons m rest ih =>
      intro bs acc h
      simp only [List.map, List.sum_cons] at h
      rw [sumFailedFrom]
      split_ifs with h1 h2
      · exact ih bs.tail (acc + m.stake_amount) (by omega)
      · omega
      · exact ih bs.tail acc (by omega)

/-! ## C6: group settlement -/

/-- **C6.** Resolving a group pact at or after the deadline with one
balance per member: if every member's balance is at least their own
`start_balance`, each member's own stake is returned to them
individually and status becomes Passed with the fee pool untouched; if
any member's balance is below their threshold, every passing member
receives exactly their own stake back, every failing member's stake is
forfeited to the Registry fee pool, and status becomes Failed regardless
of how many members passed. The `hescAll` hypothesis is the C3 escrow
invariant (each member's escrow holds exactly their recorded stake);
`hTot` keeps the event-field stake summation inside u64. -/
theorem c6_group_settlement
    (now creator_addr pact_index current_balance : Nat)
    (member_balances : List Nat) (s : Store)
    (hlen : pact_index < s.pacts.length)
    (hgroup : (pactAt s pact_index).is_group = true)
    (hactive : (pactAt s pact_index).status = STATUS_ACTIVE)
    (hdl : (pactAt s pact_index).deadline ≤ now)
    (hblen : member_balances.length =
      (pactAt s pact_index).group_members.length)
    (hescAll : ∀ m ∈ (pactAt s pact_index).group_members,
      m.escrowed_stake = m.stake_amount)
    (hTot : (((pactAt s pact_index).group_members.map
      (fun m => m.stake_amount)).sum ≤ U64_MAX)) :
    (check_all_members_passed (pactAt s pact_index).group_members
        member_balances = true →
      resolve_pact now creator_addr pact_index current_balance
          member_balances s =
        .ok ({ s with
                pacts := s.pacts.set pact_index <|
                  { pactAt s pact_index with
                      status := STATUS_PASSED,
                      group_members := (pactAt s pact_index).group_members.map
                        (fun m => { m with escrowed_stake := 0 }) },
                protocol_fees := s.protocol_fees },
             (pactAt s pact_index).group_members.map
               (fun m => (m.member, m.stake_amount)))) ∧
    (check_all_members_passed (pactAt s pact_index).group_members
        member_balances = false →
      resolve_pact now creator_addr pact_index current_balance
          member_balances s =
        .ok ({ s with
                pacts := s.pacts.set pact_index <|
                  { pactAt s pact_index with
                      status := STATUS_FAILED,
                      group_members := (pactAt s pact_index).group_members.map
                        (fun m => { m with escrowed_stake := 0 }) },
                protocol_fees := s.protocol_fees +
                  ((((pactAt s pact_index).group_members.zip
                      member_balances).filter
                        (fun x => decide (x.2 < x.1.start_balance))).map
                    (fun x => x.1.stake_amount)).sum },
             (((pactAt s pact_index).group_members.zip
                 member_balances).filter
                   (fun x => decide (x.1.start_balance ≤ x.2))).map
               (fun x => (x.1.member, x.1.stake_amount)))) := by
  have hne : s.pacts ≠ [] := by
    intro h0
    rw [h0] at hlen
    simp at hlen
  have hms : (pactAt s pact_index).group_members.length =
      member_balances.length := hblen.symm
  have htotal := sumStakesFrom_ok (pactAt s pact_index).group_members 0
    (by simpa using hTot)
  obtain ⟨f, hf⟩ := sumFailedFrom_ok_ex (pactAt s pact_index).group_members
    member_balances 0 (by simpa using hTot)
  have hdep := settleFailedGroup_deposits (pactAt s pact_index).group_members
    member_balances hms
  have hfees := settleFailedGroup_fees (pactAt s pact_index).group_members
    member_balances hms
  have hmem := settleFailedGroup_members (pactAt s pact_index).group_members
    member_balances
  have hdep2 :
      ((((pactAt s pact_index).group_members.zip member_balances).filter
        (fun x => decide (x.1.start_balance ≤ x.2))).map
          (fun x => (x.1.member, x.1.escrowed_stake))) =
      ((((pactAt s pact_index).group_members.zip member_balances).filter
        (fun x => decide (x.1.start_balance ≤ x.2))).map
          (fun x => (x.1.member, x.1.stake_amount))) := by
    apply List.map_congr_left
    intro a ha
    have hz := (List.mem_filter.mp ha).1
    have := hescAll a.1 (List.of_mem_zip hz).1
    rw [this]
  have hfees2 :
      ((((pactAt s pact_index).group_members.zip member_balances).filter
        (fun x => decide (x.2 < x.1.start_balance))).map
          (fun x => x.1.escrowed_stake)) =
      ((((pactAt s pact_index).group_members.zip member_balances).filter
        (fun x => decide (x.2 < x.1.start_balance))).map
          (fun x => x.1.stake_amount)) := by
    apply List.map_congr_left
    intro a ha
    have hz := (List.mem_filter.mp ha).1
    exact hescAll a.1 (List.of_mem_zip hz).1
  have hdepPass :
      (pactAt s pact_index).group_members.map
        (fun m => (m.member, m.escrowed_stake)) =
      (pactAt s pact_index).group_members.map
        (fun m => (m.member, m.stake_amount)) := by
    apply List.map_congr_left
    intro a ha
    rw [hescAll a ha]
  constructor
  · intro hall
    simp only [resolve_pact, resolve_group_pact, calculate_total_stake,
      calculate_failed_stakes, pactAt] at *
    set p := s.pacts.getD pact_index default with hp
    simp [hne, hlen, hactive, hdl, hgroup, hblen, htotal, hf, hall,
      hdepPass]
  · intro hnall
    simp only [resolve_pact, resolve_group_pact, calculate_total_stake,
      calculate_failed_stakes, pactAt] at *
    set p := s.pacts.getD pact_index default with hp
    simp [hne, hlen, hactive, hdl, hgroup, hblen, htotal, hf, hnall,
      hmem, hdep, hfees, hdep2, hfees2]

/-- Witness for C6: a two-member group pact (members 7 and 8, stakes
1000000 and 3000000, thresholds 10 and 20), resolved once with both
passing and once with member 8 failing. -/
def g2PactW : Pact :=
  { creator := 7, token_address := 3, start_balance := 10,
    stake_amount := 1000000, deadline := 100, status := 0,
    escrowed_stake := 0, challenge := [], is_group := true,
    max_group_size := 2,
    group_members := [{ member := 7, stake_amount := 1000000,
                        escrowed_stake := 1000000, start_balance := 10 },
                      { member := 8, stake_amount := 3000000,
                        escrowed_stake := 3000000, start_balance := 20 }] }

def g2StoreW : Store :=
  { initialized := true, pact_counter := 1, protocol_fees := 0,
    pacts := [g2PactW] }

theorem c6_group_settlement_witness :
    resolve_pact 100 7 0 0 [10, 20] g2StoreW =
      .ok ({ g2StoreW with
              pacts := g2StoreW.pacts.set 0 <|
                { pactAt g2StoreW 0 with
                    status := STATUS_PASSED,
                    group_members := (pactAt g2StoreW 0).group_members.map
                      (fun m => { m with escrowed_stake := 0 }) },
              protocol_fees := g2StoreW.protocol_fees },
           (pactAt g2StoreW 0).group_members.map
             (fun m => (m.member, m.stake_amount))) ∧
    resolve_pact 100 7 0 0 [10, 19] g2StoreW =
      .ok ({ g2StoreW with
              pacts := g2StoreW.pacts.set 0 <|
                { pactAt g2StoreW 0 with
                    status := STATUS_FAILED,
                    group_members := (pactAt g2StoreW 0).group_members.map
                      (fun m => { m with escrowed_stake := 0 }) },
              protocol_fees := g2StoreW.protocol_fees +
                ((((pactAt g2StoreW 0).group_members.zip [10, 19]).filter
                    (fun x => decide (x.2 < x.1.start_balance))).map
                  (fun x => x.1.stake_amount)).sum },
           (((pactAt g2StoreW 0).group_members.zip [10, 19]).filter
               (fun x => decide (x.1.start_balance ≤ x.2))).map
             (fun x => (x.1.member, x.1.stake_amount))) :=
  ⟨(c6_group_settlement 100 7 0 0 [10, 20] g2StoreW (by decide) (by decide)
      (by decide) (by decide) (by decide) (by decide) (by decide)).1
      (by decide),
   (c6_group_settlement 100 7 0 0 [10, 19] g2StoreW (by decide) (by decide)
      (by decide) (by decide) (by decide) (by decide) (by decide)).2
      (by decide)⟩

/-! ## Inversion lemmas for resolution -/

/-- Everything a successful `resolve_group_pact` run guarantees: every
member escrow is zeroed, the status becomes Passed or Failed, the solo
escrow / challenge / identity fields are untouched, and the deposits
plus the fee-pool increase account exactly for the members' escrows. -/
theorem resolve_group_pact_ok_inv (pact : Pact) (member_balances : List Nat)
    (fees : Nat) (r : Pact × Nat × List Deposit)
    (h : resolve_group_pact pact member_balances fees = .ok r) :
    r.1.group_members =
      pact.group_members.map (fun m => { m with escrowed_stake := 0 }) ∧
    (r.1.status = STATUS_PASSED ∨ r.1.status = STATUS_FAILED) ∧
    r.1.escrowed_stake = pact.escrowed_stake ∧
    r.1.challenge = pact.challenge ∧
    r.1.is_group = pact.is_group ∧
    r.1.stake_amount = pact.stake_amount ∧
    depositsTotal r.2.2 + r.2.1 = memberEscrowTotal pact + fees ∧
    fees ≤ r.2.1 := by
  simp only [resolve_group_pact] at h
  split_ifs at h with hlen hall
  · rcases ht : calculate_total_stake pact.group_members with e | t <;>
      rw [ht] at h <;> dsimp only at h
    · exact absurd h (by simp)
    rcases hfs : calculate_failed_stakes pact.group_members member_balances
        with e | fs <;> rw [hfs] at h <;> dsimp only at h
    · exact absurd h (by simp)
    injection h with h
    subst h
    refine ⟨rfl, Or.inl rfl, rfl, rfl, rfl, rfl, ?_, Nat.le_refl _⟩
    simp only [depositsTotal, memberEscrowTotal, List.map_map]
    rfl
  · rcases ht : calculate_total_stake pact.group_members with e | t <;>
      rw [ht] at h <;> dsimp only at h
    · exact absurd h (by simp)
    rcases hfs : calculate_failed_stakes pact.group_members member_balances
        with e | fs <;> rw [hfs] at h <;> dsimp only at h
    · exact absurd h (by simp)
    injection h with h
    subst h
    have hcons := settleFailedGroup_conservation pact.group_members
      member_balances
    have hmem := settleFailedGroup_members pact.group_members member_balances
    refine ⟨hmem, Or.inr rfl, rfl, rfl, rfl, rfl, ?_, Nat.le_add_right _ _⟩
    simp only [memberEscrowTotal]
    omega

/-- The value the challenge slot contributes to a pact's escrow: the
head challenge's escrowed coin (zero when no challenge is attached — the
default `Challenge` carries a zero coin). -/
def headChallengeEscrow (p : Pact) : Nat :=
  (p.challenge.headD default).escrowed_challenge

/-- Master inversion for a successful `resolve_pact`: locates the
resolved record, characterises the new pact stored at the index, and
accounts for every coin moved, in both the solo and the group path. -/
theorem resolve_pact_ok_inv (now creator_addr pact_index current_balance :
    Nat) (member_balances : List Nat) (s s' : Store) (ds : List Deposit)
    (h : resolve_pact now creator_addr pact_index current_balance
      member_balances s = .ok (s', ds)) :
    pact_index < s.pacts.length ∧
    (pactAt s pact_index).status = STATUS_ACTIVE ∧
    s.protocol_fees ≤ s'.protocol_fees ∧
    (∃ q, s'.pacts = s.pacts.set pact_index q ∧
      (q.status = STATUS_PASSED ∨ q.status = STATUS_FAILED) ∧
      q.is_group = (pactAt s pact_index).is_group ∧
      q.stake_amount = (pactAt s pact_index).stake_amount ∧
      q.challenge.length = (pactAt s pact_index).challenge.length ∧
      ((pactAt s pact_index).is_group = true →
        q.escrowed_stake = (pactAt s pact_index).escrowed_stake ∧
        q.challenge = (pactAt s pact_index).challenge ∧
        q.group_members = (pactAt s pact_index).group_members.map
          (fun m => { m with escrowed_stake := 0 })) ∧
      ((pactAt s pact_index).is_group = false →
        q.escrowed_stake = 0 ∧
        q.group_members = (pactAt s pact_index).group_members)) ∧
    ((pactAt s pact_index).is_group = true →
      depositsTotal ds + s'.protocol_fees =
        memberEscrowTotal (pactAt s pact_index) + s.protocol_fees) ∧
    ((pactAt s pact_index).is_group = false →
      depositsTotal ds + s'.protocol_fees =
        (pactAt s pact_index).escrowed_stake +
          headChallengeEscrow (pactAt s pact_index) + s.protocol_fees) ∧
    ((pactAt s pact_index).is_group = false →
      (pactAt s pact_index).challenge = [] →
      ¬ ((pactAt s pact_index).start_balance ≤ current_balance) →
      s'.protocol_fees = s.protocol_fees +
        ((pactAt s pact_index).stake_amount -
          (pactAt s pact_index).stake_amount *
            SLASH_PERCENTAGE_RETURNED / 100)) := by
  simp only [resolve_pact, pactAt] at h ⊢
  set p := s.pacts.getD pact_index default with hp
  by_cases h1 : s.pacts ≠ []
  case neg => rw [if_neg h1] at h; exact absurd h (by simp)
  rw [if_pos h1] at h
  by_cases h2 : pact_index < s.pacts.length
  case neg => rw [if_neg h2] at h; exact absurd h (by simp)
  rw [if_pos h2] at h
  by_cases h3 : p.status = STATUS_ACTIVE
  case neg => rw [if_neg h3] at h; exact absurd h (by simp)
  rw [if_pos h3] at h
  by_cases h4 : p.deadline ≤ now
  case neg => rw [if_neg h4] at h; exact absurd h (by simp)
  rw [if_pos h4] at h
  by_cases h5 : p.is_group = true
  · -- group branch
    rw [if_pos h5] at h
    rcases hg : resolve_group_pact p member_balances s.protocol_fees
        with e | r <;> rw [hg] at h <;> dsimp only at h
    · exact absurd h (by simp)
    injection h with h
    injection h with hA hB
    subst hA hB
    obtain ⟨gm, gs, ge, gc, gg, gk, gcons, gfee⟩ :=
      resolve_group_pact_ok_inv _ _ _ _ hg
    refine ⟨h2, h3, gfee,
      ⟨r.1, rfl, gs, by rw [gg, h5], gk, by rw [gc],
        fun _ => ⟨ge, gc, gm⟩,
        fun hf => by rw [h5] at hf; simp at hf⟩,
      fun _ => gcons,
      fun hf => by rw [h5] at hf; simp at hf,
      fun hf => by rw [h5] at hf; simp at hf⟩
  rw [if_neg h5] at h
  have hgf : p.is_group = false := by
    revert h5; cases p.is_group <;> simp
  by_cases h6 : p.start_balance ≤ current_balance
  · -- passed
    rw [if_pos h6] at h
    by_cases h7 : p.challenge.length ≠ 0
    · -- challenge attached, passed
      rw [if_pos h7] at h
      cases hchal : p.challenge with
      | nil => rw [hchal] at h7; simp at h7
      | cons c rest =>
          rw [hchal] at h
          simp only [List.headD_cons, List.tail_cons] at h
          by_cases h8 : p.stake_amount + c.challenge_stake ≤ U64_MAX
          case neg => rw [if_neg h8] at h; exact absurd h (by simp)
          rw [if_pos h8] at h
          injection h with h
          injection h with hA hB
          subst hA hB
          refine ⟨h2, h3, Nat.le_refl _,
            ⟨_, rfl, Or.inl rfl, by rw [hgf], rfl, rfl,
              fun hgt => absurd hgt (by rw [hgf]; simp),
              fun _ => ⟨rfl, rfl⟩⟩,
            fun hgt => absurd hgt (by rw [hgf]; simp),
            fun _ => ?_,
            fun _ hemp _ => by simp at hemp⟩
          simp only [depositsTotal, headChallengeEscrow, hchal,
            List.headD_cons, List.map, List.sum_cons, List.sum_nil]
          omega
    · -- no challenge, passed
      rw [if_neg h7] at h
      have hemp : p.challenge = [] := by
        rcases Nat.eq_zero_or_pos p.challenge.length with h0 | h0
        · exact List.length_eq_zero.mp h0
        · exact absurd (Nat.pos_iff_ne_zero.mp h0) (by simpa using h7)
      injection h with h
      injection h with hA hB
      subst hA hB
      refine ⟨h2, h3, Nat.le_refl _,
        ⟨_, rfl, Or.inl rfl, by rw [hgf], rfl, rfl,
          fun hgt => absurd hgt (by rw [hgf]; simp),
          fun _ => ⟨rfl, rfl⟩⟩,
        fun hgt => absurd hgt (by rw [hgf]; simp),
        fun _ => ?_, fun _ _ hlt => absurd h6 hlt⟩
      simp only [depositsTotal, headChallengeEscrow, hemp, List.headD_nil,
        List.map, List.sum_cons, List.sum_nil]
      have hd : (default : Challenge).escrowed_challenge = 0 := rfl
      rw [hd]
  · -- failed
    rw [if_neg h6] at h
    by_cases h9 : p.challenge.length ≠ 0
    · -- challenge attached, failed
      rw [if_pos h9] at h
      cases hchal : p.challenge with
      | nil => rw [hchal] at h9; simp at h9
      | cons c rest =>
          rw [hchal] at h
          simp only [List.headD_cons, List.tail_cons] at h
          injection h with h
          injection h with hA hB
          subst hA hB
          refine ⟨h2, h3, Nat.le_refl _,
            ⟨_, rfl, Or.inr rfl, by rw [hgf], rfl, rfl,
              fun hgt => absurd hgt (by rw [hgf]; simp),
              fun _ => ⟨rfl, rfl⟩⟩,
            fun hgt => absurd hgt (by rw [hgf]; simp),
            fun _ => ?_,
            fun _ hemp _ => by simp at hemp⟩
          simp only [depositsTotal, headChallengeEscrow, hchal,
            List.headD_cons, List.map, List.sum_cons, List.sum_nil]
          omega
    · -- no challenge, failed: the 90/10 split
      rw [if_neg h9] at h
      have hemp : p.challenge = [] := by
        rcases Nat.eq_zero_or_pos p.challenge.length with h0 | h0
        · exact List.length_eq_zero.mp h0
        · exact absurd (Nat.pos_iff_ne_zero.mp h0) (by simpa using h9)
      by_cases h10 : p.stake_amount * SLASH_PERCENTAGE_RETURNED ≤ U64_MAX
      case neg => rw [if_neg h10] at h; exact absurd h (by simp)
      rw [if_pos h10] at h
      by_cases h11 : p.stake_amount -
          p.stake_amount * SLASH_PERCENTAGE_RETURNED / 100 ≤ p.escrowed_stake
      case neg => rw [if_neg h11] at h; exact absurd h (by simp)
      rw [if_pos h11] at h
      injection h with h
      injection h with hA hB
      subst hA hB
      refine ⟨h2, h3, Nat.le_add_right _ _,
        ⟨_, rfl, Or.inr rfl, by rw [hgf], rfl, rfl,
          fun hgt => absurd hgt (by rw [hgf]; simp),
          fun _ => ⟨rfl, rfl⟩⟩,
        fun hgt => absurd hgt (by rw [hgf]; simp),
        fun _ => ?_, fun _ _ _ => rfl⟩
      simp only [depositsTotal, headChallengeEscrow, hemp, List.headD_nil,
        List.map, List.sum_cons, List.sum_nil]
      have hd : (default : Challenge).escrowed_challenge = 0 := rfl
      rw [hd]
      omega

/-! ## The reachable-state invariant -/

/-- The escrow-balance invariant of C3, exactly as the spec states it:
while Active, the solo escrow holds exactly `stake_amount` (solo pacts)
or zero (group pacts, whose members each hold exactly their own recorded
stake); once resolved, the solo escrow and all member escrows are
zero. -/
def pactEscrowInv (p : Pact) : Prop :=
  (p.status = STATUS_ACTIVE →
     (p.is_group = true → p.escrowed_stake = 0 ∧
        ∀ m ∈ p.group_members, m.escrowed_stake = m.stake_amount) ∧
     (p.is_group = false → p.escrowed_stake = p.stake_amount)) ∧
  (p.status ≠ STATUS_ACTIVE →
     p.escrowed_stake = 0 ∧ ∀ m ∈ p.group_members, m.escrowed_stake = 0)

/-- The full inductive invariant of reachable pact records: the escrow
invariant, plus structural facts maintained by every operation — solo
pacts have no member records, the challenge vector holds at most one
element, an Active pact's stake meets the positive minimum. -/
def pactInv (p : Pact) : Prop :=
  pactEscrowInv p ∧
  (p.is_group = false → p.group_members = []) ∧
  p.challenge.length ≤ 1 ∧
  (p.status = STATUS_ACTIVE → 1 ≤ p.stake_amount)

/-- Every pact of the store satisfies the inductive invariant. -/
def storeInv (s : Store) : Prop := ∀ p ∈ s.pacts, pactInv p

theorem storeInv_init : storeInv initStore := by
  intro p hp
  simp [initStore] at hp

theorem storeInv_create (now a tok sb st dl : Nat) (s s' : Store)
    (ds : List Deposit) (hs : storeInv s)
    (h : create_pact now a tok sb st dl s = .ok (s', ds)) : storeInv s' := by
  simp only [create_pact] at h
  split_ifs at h with h1 h2 h3 h4
  injection h with h
  injection h with h _
  subst h
  intro p hp
  simp only [List.mem_append, List.mem_singleton] at hp
  rcases hp with hp | hp
  · exact hs p hp
  · subst hp
    refine ⟨⟨fun _ => ⟨fun hg => by simp at hg, fun _ => rfl⟩,
      fun hn => absurd rfl hn⟩, fun _ => rfl, by simp, fun _ => ?_⟩
    show 1 ≤ st
    simp only [MINIMUM_STAKE] at h1
    omega

theorem storeInv_create_group (now a tok sb st dl mx : Nat) (s s' : Store)
    (ds : List Deposit) (hs : storeInv s)
    (h : create_group_pact now a tok sb st dl mx s = .ok (s', ds)) :
    storeInv s' := by
  simp only [create_group_pact] at h
  split_ifs at h with h1 h2 h3 h4 h5
  injection h with h
  injection h with h _
  subst h
  intro p hp
  simp only [List.mem_append, List.mem_singleton] at hp
  rcases hp with hp | hp
  · exact hs p hp
  · subst hp
    refine ⟨⟨fun _ => ⟨fun _ => ⟨rfl, ?_⟩, fun hg => by simp at hg⟩,
      fun hn => absurd rfl hn⟩, fun hg => by simp at hg, by simp,
      fun _ => ?_⟩
    · intro m hm
      simp only [List.mem_singleton] at hm
      subst hm
      rfl
    · show 1 ≤ st
      simp only [MINIMUM_STAKE] at h1
      omega

theorem storeInv_join (now ma ca i st sb : Nat) (s s' : Store)
    (ds : List Deposit) (hs : storeInv s)
    (h : join_group_pact now ma ca i st sb s = .ok (s', ds)) :
    storeInv s' := by
  simp only [join_group_pact] at h
  split_ifs at h with h1 h2 h3 h4 h5 h6 h7 h8
  injection h with h
  injection h with h _
  subst h
  intro p hp
  rcases List.mem_or_eq_of_mem_set hp with hp | hp
  · exact hs p hp
  · subst hp
    have hold : pactInv (s.pacts.getD i default) := by
      apply hs
      have := List.getElem_mem (l := s.pacts) (n := i) h3
      simpa [List.getD_eq_getElem?_getD, List.getElem?_eq_getElem h3]
        using this
    obtain ⟨⟨hact, hres⟩, hsolo, hchal, hstk⟩ := hold
    refine ⟨⟨fun _ => ⟨fun _ => ⟨(hact h5).1 h4 |>.1, ?_⟩,
      fun hg => by rw [h4] at hg; simp at hg⟩,
      fun hn => absurd h5 hn⟩,
      fun hg => by rw [h4] at hg; simp at hg,
      hchal, fun _ => hstk h5⟩
    intro m hm
    simp only [List.mem_append, List.mem_singleton] at hm
    rcases hm with hm | hm
    · exact ((hact h5).1 h4).2 m hm
    · subst hm
      rfl

theorem storeInv_challenge (now ch ca i st : Nat) (s s' : Store)
    (ds : List Deposit) (hs : storeInv s)
    (h : challenge_pact now ch ca i st s = .ok (s', ds)) : storeInv s' := by
  simp only [challenge_pact] at h
  split_ifs at h with h1 h2 h3 h4 h5 h6 h7
  injection h with h
  injection h with h _
  subst h
  intro p hp
  rcases List.mem_or_eq_of_mem_set hp with hp | hp
  · exact hs p hp
  · subst hp
    have hold : pactInv (s.pacts.getD i default) := by
      apply hs
      have := List.getElem_mem (l := s.pacts) (n := i) h4
      simpa [List.getD_eq_getElem?_getD, List.getElem?_eq_getElem h4]
        using this
    obtain ⟨⟨hact, hres⟩, hsolo, hchal, hstk⟩ := hold
    have hemp : (s.pacts.getD i default).challenge = [] :=
      List.length_eq_zero.mp h7
    refine ⟨⟨fun _ => hact h5, fun hn => absurd h5 hn⟩, hsolo,
      by rw [hemp]; simp, fun _ => hstk h5⟩

theorem storeInv_cancel (ca i : Nat) (s s' : Store) (ds : List Deposit)
    (hs : storeInv s) (h : cancel_pact ca i s = .ok (s', ds)) :
    storeInv s' := by
  simp only [cancel_pact] at h
  split_ifs at h with h1 h2 h3 h4 h5
  injection h with h
  injection h with h _
  subst h
  intro p hp
  rcases List.mem_or_eq_of_mem_set hp with hp | hp
  · exact hs p hp
  · subst hp
    have hold : pactInv (s.pacts.getD i default) := by
      apply hs
      have := List.getElem_mem (l := s.pacts) (n := i) h2
      simpa [List.getD_eq_getElem?_getD, List.getElem?_eq_getElem h2]
        using this
    obtain ⟨⟨hact, hres⟩, hsolo, hchal, hstk⟩ := hold
    have hng : (s.pacts.getD i default).is_group = false := by
      by_contra hgg
      have hg : (s.pacts.getD i default).is_group = true := by
        cases hgx : (s.pacts.getD i default).is_group
        · exact absurd hgx hgg
        · rfl
      have hesc0 : (s.pacts.getD i default).escrowed_stake = 0 :=
        ((hact h3).1 hg).1
      have hpos := slash_fee_pos (hstk h3)
      rw [hesc0] at h5
      omega
    refine ⟨⟨fun hc => by simp [STATUS_FAILED, STATUS_ACTIVE] at hc,
      fun _ => ⟨rfl, ?_⟩⟩, fun _ => hsolo hng, hchal,
      fun hc => by simp [STATUS_FAILED, STATUS_ACTIVE] at hc⟩
    rw [hsolo hng]
    intro m hm
    simp at hm

theorem storeInv_resolve (now ca i cb : Nat) (mb : List Nat) (s s' : Store)
    (ds : List Deposit) (hs : storeInv s)
    (h : resolve_pact now ca i cb mb s = .ok (s', ds)) : storeInv s' := by
  obtain ⟨hlen, hact0, _,
      ⟨q, hset, hqs, hqg, hqk, hqcl, hqgt, hqgf⟩, _, _, _⟩ :=
    resolve_pact_ok_inv _ _ _ _ _ _ _ _ h
  intro p0 hp0
  rw [hset] at hp0
  rcases List.mem_or_eq_of_mem_set hp0 with hmem | heq
  · exact hs p0 hmem
  · rw [heq]
    have hold : pactInv (pactAt s i) := by
      apply hs
      have := List.getElem_mem (l := s.pacts) (n := i) hlen
      simpa [pactAt, List.getD_eq_getElem?_getD,
        List.getElem?_eq_getElem hlen] using this
    obtain ⟨⟨hact, hres⟩, hsolo, hchal, hstk⟩ := hold
    have hqnact : q.status ≠ STATUS_ACTIVE := by
      rcases hqs with hq1 | hq1 <;> rw [hq1] <;> decide
    refine ⟨⟨fun hc => absurd hc hqnact, fun _ => ⟨?_, ?_⟩⟩, ?_,
      by rw [hqcl]; exact hchal, fun hc => absurd hc hqnact⟩
    · rcases Bool.eq_false_or_eq_true (pactAt s i).is_group with hgb | hgb
      · rw [(hqgt hgb).1]
        exact ((hact hact0).1 hgb).1
      · exact (hqgf hgb).1
    · rcases Bool.eq_false_or_eq_true (pactAt s i).is_group with hgb | hgb
      · rw [(hqgt hgb).2.2]
        intro m hm
        simp only [List.mem_map] at hm
        obtain ⟨m0, _, hm0⟩ := hm
        rw [hm0.symm]
      · rw [(hqgf hgb).2, hsolo hgb]
        intro m hm
        simp at hm
    · intro hqf
      have hgb : (pactAt s i).is_group = false := by
        rw [hqg] at hqf
        exact hqf
      rw [(hqgf hgb).2]
      exact hsolo hgb

/-- Every successful entry-function invocation preserves the inductive
invariant. -/
theorem storeInv_step (s s' : Store) (hs : storeInv s) (hst : Step s s') :
    storeInv s' := by
  cases hst with
  | create now a tok sb st dl _ _ ds h =>
      exact storeInv_create now a tok sb st dl s s' ds hs h
  | create_group now a tok sb st dl mx _ _ ds h =>
      exact storeInv_create_group now a tok sb st dl mx s s' ds hs h
  | join now ma ca i st sb _ _ ds h =>
      exact storeInv_join now ma ca i st sb s s' ds hs h
  | challenge now ch ca i st _ _ ds h =>
      exact storeInv_challenge now ch ca i st s s' ds hs h
  | resolve now ca i cb mb _ _ ds h =>
      exact storeInv_resolve now ca i cb mb s s' ds hs h
  | cancel ca i _ _ ds h =>
      exact storeInv_cancel ca i s s' ds hs h

/-- Every reachable store satisfies the inductive invariant. -/
theorem reach_storeInv (s : Store) (hs : Reach s) : storeInv s := by
  induction hs with
  | init => exact storeInv_init
  | step s1 s2 _ hstep ih => exact storeInv_step s1 s2 ih hstep

/-! ## C3: the escrow-balance invariant -/

/-- **C3.** In every reachable store, every pact satisfies the escrow
invariant: while `status = Active` a solo pact's `escrowed_stake` holds
exactly `stake_amount`, and a group pact's solo escrow field holds zero
while each `group_members[i].escrowed_stake` holds exactly that member's
recorded `stake_amount`; once the status has left Active (any
resolution or cancellation), the solo escrow and every member escrow are
zero. -/
theorem c3_escrow_invariant (s : Store) (hs : Reach s) :
    ∀ p ∈ s.pacts, pactEscrowInv p :=
  fun p hp => ((reach_storeInv s hs) p hp).1

theorem c3_escrow_invariant_witness : pactEscrowInv soloPactW :=
  c3_escrow_invariant soloStoreW
    (Reach.step initStore soloStoreW Reach.init
      (Step.create 0 7 3 10 1000000 100 initStore soloStoreW [] rfl))
    soloPactW (by simp [soloStoreW])

/-! ## Shape lemmas: how each operation changes the pacts vector -/

theorem create_pact_ok_pacts (now a tok sb st dl : Nat) (s s' : Store)
    (ds : List Deposit) (h : create_pact now a tok sb st dl s = .ok (s', ds)) :
    ∃ np, s'.pacts = s.pacts ++ [np] := by
  simp only [create_pact] at h
  split_ifs at h with h1 h2 h3 h4
  injection h with h
  injection h with h _
  subst h
  exact ⟨_, rfl⟩

theorem create_group_pact_ok_pacts (now a tok sb st dl mx : Nat)
    (s s' : Store) (ds : List Deposit)
    (h : create_group_pact now a tok sb st dl mx s = .ok (s', ds)) :
    ∃ np, s'.pacts = s.pacts ++ [np] := by
  simp only [create_group_pact] at h
  split_ifs at h with h1 h2 h3 h4 h5
  injection h with h
  injection h with h _
  subst h
  exact ⟨_, rfl⟩

theorem join_group_pact_ok_pacts (now ma ca i st sb : Nat) (s s' : Store)
    (ds : List Deposit)
    (h : join_group_pact now ma ca i st sb s = .ok (s', ds)) :
    ∃ q, i < s.pacts.length ∧ s'.pacts = s.pacts.set i q ∧
      q.status = (pactAt s i).status := by
  simp only [join_group_pact] at h
  split_ifs at h with h1 h2 h3 h4 h5 h6 h7 h8
  injection h with h
  injection h with h _
  subst h
  exact ⟨_, h3, rfl, rfl⟩

theorem challenge_pact_ok_pacts (now ch ca i st : Nat) (s s' : Store)
    (ds : List Deposit)
    (h : challenge_pact now ch ca i st s = .ok (s', ds)) :
    ∃ q, i < s.pacts.length ∧ s'.pacts = s.pacts.set i q ∧
      q.status = (pactAt s i).status := by
  simp only [challenge_pact] at h
  split_ifs at h with h1 h2 h3 h4 h5 h6 h7
  injection h with h
  injection h with h _
  subst h
  exact ⟨_, h4, rfl, rfl⟩

theorem cancel_pact_ok_pacts (ca i : Nat) (s s' : Store)
    (ds : List Deposit) (h : cancel_pact ca i s = .ok (s', ds)) :
    ∃ q, i < s.pacts.length ∧ (pactAt s i).status = STATUS_ACTIVE ∧
      s'.pacts = s.pacts.set i q := by
  simp only [cancel_pact, pactAt] at h ⊢
  split_ifs at h with h1 h2 h3 h4 h5
  injection h with h
  injection h with h _
  subst h
  exact ⟨_, h2, h3, rfl⟩

/-- A resolution attempt against a pact whose status has left Active is
rejected with `error::invalid_state E_PACT_NOT_ACTIVE` (and, the result
being an error, no state change or deposit occurs). -/
theorem resolve_pact_not_active (now creator_addr pact_index
    current_balance : Nat) (member_balances : List Nat) (s : Store)
    (hlen : pact_index < s.pacts.length)
    (hstat : (pactAt s pact_index).status ≠ STATUS_ACTIVE) :
    resolve_pact now creator_addr pact_index current_balance
      member_balances s =
      .error (.abortCode (errInvalidState E_PACT_NOT_ACTIVE)) := by
  have hne : s.pacts ≠ [] := by
    intro h0
    rw [h0] at hlen
    simp at hlen
  simp only [resolve_pact, pactAt] at *
  rw [if_pos hne, if_pos hlen, if_neg hstat]

/-! ## C1: exactly-once resolution -/

/-- **C1.** `resolve_pact` is the only path that moves a pact's status
away from Active, and it does so exactly once: (1) a successful
resolution (solo or group) leaves the status Passed or Failed; (2) a
resolution attempt at a valid index whose pact is no longer Active is
rejected with `error::invalid_state E_PACT_NOT_ACTIVE` (an error moves
no funds and changes no state); (3) no operation of the module ever
changes the status of a non-Active pact, so resolution is permanent;
(4) hence after any successful resolution of `(creator, index)`, every
subsequent `resolve_pact` call on the same index — any clock, balance or
caller — is rejected with the not-active error. -/
theorem c1_exactly_once_resolution :
    (∀ (now ca i cb : Nat) (mb : List Nat) (s s' : Store)
       (ds : List Deposit), resolve_pact now ca i cb mb s = .ok (s', ds) →
       (pactAt s' i).status = STATUS_PASSED ∨
       (pactAt s' i).status = STATUS_FAILED) ∧
    (∀ (now ca i cb : Nat) (mb : List Nat) (s : Store),
       i < s.pacts.length → (pactAt s i).status ≠ STATUS_ACTIVE →
       resolve_pact now ca i cb mb s =
         .error (.abortCode (errInvalidState E_PACT_NOT_ACTIVE))) ∧
    (∀ s s', Step s s' → ∀ i, i < s.pacts.length →
       (pactAt s i).status ≠ STATUS_ACTIVE →
       (pactAt s' i).status = (pactAt s i).status) ∧
    (∀ (now ca i cb : Nat) (mb : List Nat) (s s' : Store)
       (ds : List Deposit), resolve_pact now ca i cb mb s = .ok (s', ds) →
       ∀ (now2 ca2 cb2 : Nat) (mb2 : List Nat),
         resolve_pact now2 ca2 i cb2 mb2 s' =
           .error (.abortCode (errInvalidState E_PACT_NOT_ACTIVE))) := by
  have hA : ∀ (now ca i cb : Nat) (mb : List Nat) (s s' : Store)
      (ds : List Deposit), resolve_pact now ca i cb mb s = .ok (s', ds) →
      i < s'.pacts.length ∧
      ((pactAt s' i).status = STATUS_PASSED ∨
       (pactAt s' i).status = STATUS_FAILED) := by
    intro now ca i cb mb s s' ds h
    obtain ⟨hlen, _, _, ⟨q, hset, hqs, _⟩, _, _, _⟩ :=
      resolve_pact_ok_inv _ _ _ _ _ _ _ _ h
    have hq : pactAt s' i = q := by
      simp only [pactAt]
      rw [hset]
      exact getD_set_self _ hlen
    refine ⟨?_, by rw [hq]; exact hqs⟩
    rw [hset, List.length_set]
    exact hlen
  refine ⟨fun now ca i cb mb s s' ds h => (hA now ca i cb mb s s' ds h).2,
    fun now ca i cb mb s hlen hstat =>
      resolve_pact_not_active now ca i cb mb s hlen hstat,
    ?_, ?_⟩
  · intro s s' hstep i hlen hstat
    cases hstep with
    | create now a tok sb st dl _ _ ds h =>
        obtain ⟨np, hp⟩ := create_pact_ok_pacts now a tok sb st dl s s' ds h
        simp only [pactAt] at *
        rw [hp, getD_append_lt _ hlen]
    | create_group now a tok sb st dl mx _ _ ds h =>
        obtain ⟨np, hp⟩ :=
          create_group_pact_ok_pacts now a tok sb st dl mx s s' ds h
        simp only [pactAt] at *
        rw [hp, getD_append_lt _ hlen]
    | join now ma ca j st sb _ _ ds h =>
        obtain ⟨q, hj, hset, hqs⟩ :=
          join_group_pact_ok_pacts now ma ca j st sb s s' ds h
        by_cases hji : j = i
        · subst hji
          have : pactAt s' j = q := by
            simp only [pactAt]
            rw [hset]
            exact getD_set_self _ hj
          rw [this, hqs]
        · simp only [pactAt] at *
          rw [hset, getD_set_ne _ hji]
    | challenge now ch ca j st _ _ ds h =>
        obtain ⟨q, hj, hset, hqs⟩ :=
          challenge_pact_ok_pacts now ch ca j st s s' ds h
        by_cases hji : j = i
        · subst hji
          have : pactAt s' j = q := by
            simp only [pactAt]
            rw [hset]
            exact getD_set_self _ hj
          rw [this, hqs]
        · simp only [pactAt] at *
          rw [hset, getD_set_ne _ hji]
    | resolve now ca j cb mb _ _ ds h =>
        obtain ⟨hj, hact0, _, ⟨q, hset, _⟩, _, _, _⟩ :=
          resolve_pact_ok_inv _ _ _ _ _ _ _ _ h
        by_cases hji : j = i
        · subst hji
          exact absurd hact0 hstat
        · simp only [pactAt] at *
          rw [hset, getD_set_ne _ hji]
    | cancel ca j _ _ ds h =>
        obtain ⟨q, hj, hact0, hset⟩ := cancel_pact_ok_pacts ca j s s' ds h
        by_cases hji : j = i
        · subst hji
          exact absurd hact0 hstat
        · simp only [pactAt] at *
          rw [hset, getD_set_ne _ hji]
  · intro now ca i cb mb s s' ds h now2 ca2 cb2 mb2
    obtain ⟨hlen', hstat'⟩ := hA now ca i cb mb s s' ds h
    apply resolve_pact_not_active
    · exact hlen'
    · rcases hstat' with hq | hq <;> rw [hq] <;> decide

/-- Witness stores for C1: `soloStoreW` successfully resolved (Passed),
then probed again. -/
def soloPactRW : Pact :=
  { soloPactW with status := STATUS_PASSED, escrowed_stake := 0 }

def soloStoreRW : Store := { soloStoreW with pacts := [soloPactRW] }

def soloStoreRW2 : Store :=
  { initialized := true, pact_counter := 2, protocol_fees := 0,
    pacts := [soloPactRW,
              { creator := 7, token_address := 4, start_balance := 10,
                stake_amount := 1000000, deadline := 500, status := 0,
                escrowed_stake := 1000000, challenge := [], is_group := false,
                max_group_size := 0, group_members := [] }] }

theorem c1_exactly_once_resolution_witness :
    ((pactAt soloStoreRW 0).status = STATUS_PASSED ∨
      (pactAt soloStoreRW 0).status = STATUS_FAILED) ∧
    resolve_pact 200 9 0 5 [] soloStoreRW =
      .error (.abortCode (errInvalidState E_PACT_NOT_ACTIVE)) ∧
    (pactAt soloStoreRW2 0).status = (pactAt soloStoreRW 0).status ∧
    resolve_pact 200 9 0 5 [] soloStoreRW =
      .error (.abortCode (errInvalidState E_PACT_NOT_ACTIVE)) :=
  ⟨c1_exactly_once_resolution.1 100 7 0 50 [] soloStoreW soloStoreRW
     [(7, 1000000)] rfl,
   c1_exactly_once_resolution.2.1 200 9 0 5 [] soloStoreRW (by decide)
     (by decide),
   c1_exactly_once_resolution.2.2.1 soloStoreRW soloStoreRW2
     (Step.create 0 7 4 10 1000000 500 soloStoreRW soloStoreRW2 [] rfl)
     0 (by decide) (by decide),
   c1_exactly_once_resolution.2.2.2 100 7 0 50 [] soloStoreW soloStoreRW
     [(7, 1000000)] rfl 200 9 5 []⟩

/-- With at most one attached challenge (true in every reachable store),
the challenge vector's escrow total is its head's escrow. -/
theorem challengeEscrowTotal_of_le_one (p : Pact)
    (h : p.challenge.length ≤ 1) :
    challengeEscrowTotal p = headChallengeEscrow p := by
  cases hc : p.challenge with
  | nil =>
      simp [challengeEscrowTotal, headChallengeEscrow, hc]
      rfl
  | cons c rest =>
      cases rest with
      | nil => simp [challengeEscrowTotal, headChallengeEscrow, hc]
      | cons c2 rest2 => rw [hc] at h; simp at h

/-! ## C2 (amended): conservation of escrowed value -/

/-- **C2 (amended).** For every resolution, in a reachable store, of a
pact that is not a challenged group pact (i.e. solo, or group with no
challenge attached): the sum of all amounts disbursed — deposits to the
creator and/or challenger and/or members, plus the increase of the
Registry fee pool — equals exactly the total coin escrowed in the pact
at resolution time, and the integer floor-division remainder of the
90/10 split accrues to the fee side
(`fee = stake_amount - ⌊stake_amount * 90 / 100⌋`). The original claim,
quantified over *every* resolution, fails on challenged group pacts:
`challenge_pact` accepts group pacts but `resolve_group_pact` never
touches the challenge escrow, which stays locked — see the
counterexample. -/
theorem c2_conservation_amended
    (now creator_addr pact_index current_balance : Nat)
    (member_balances : List Nat) (s s' : Store) (ds : List Deposit)
    (hreach : Reach s)
    (hnoGC : (pactAt s pact_index).is_group = true →
      (pactAt s pact_index).challenge = [])
    (hok : resolve_pact now creator_addr pact_index current_balance
      member_balances s = .ok (s', ds)) :
    depositsTotal ds + s'.protocol_fees =
      escrowTotal (pactAt s pact_index) + s.protocol_fees ∧
    s.protocol_fees ≤ s'.protocol_fees ∧
    ((pactAt s pact_index).is_group = false →
     (pactAt s pact_index).challenge = [] →
     current_balance < (pactAt s pact_index).start_balance →
       s'.protocol_fees = s.protocol_fees +
         ((pactAt s pact_index).stake_amount -
           (pactAt s pact_index).stake_amount *
             SLASH_PERCENTAGE_RETURNED / 100)) := by
  obtain ⟨hlen, hact0, hfle, _, Egrp, Fsolo, Gfee⟩ :=
    resolve_pact_ok_inv _ _ _ _ _ _ _ _ hok
  have hinv : pactInv (pactAt s pact_index) := by
    apply reach_storeInv s hreach
    have := List.getElem_mem (l := s.pacts) (n := pact_index) hlen
    simpa [pactAt, List.getD_eq_getElem?_getD,
      List.getElem?_eq_getElem hlen] using this
  obtain ⟨⟨hact, _⟩, hsolo, hchal, _⟩ := hinv
  refine ⟨?_, hfle,
    fun hgb hemp hlt => Gfee hgb hemp (Nat.not_le.mpr hlt)⟩
  rcases Bool.eq_false_or_eq_true (pactAt s pact_index).is_group
    with hgb | hgb
  · -- group pact with no challenge
    have hesc0 : (pactAt s pact_index).escrowed_stake = 0 :=
      ((hact hact0).1 hgb).1
    have hchal0 : challengeEscrowTotal (pactAt s pact_index) = 0 := by
      simp [challengeEscrowTotal, hnoGC hgb]
    rw [escrowTotal, hesc0, hchal0]
    simpa using Egrp hgb
  · -- solo pact
    have hmem0 : memberEscrowTotal (pactAt s pact_index) = 0 := by
      simp [memberEscrowTotal, hsolo hgb]
    rw [escrowTotal, hmem0, challengeEscrowTotal_of_le_one _ hchal]
    simpa using Fsolo hgb

theorem c2_conservation_amended_witness :
    depositsTotal [(7, 1000000)] + soloStoreRW.protocol_fees =
      escrowTotal (pactAt soloStoreW 0) + soloStoreW.protocol_fees ∧
    soloStoreW.protocol_fees ≤ soloStoreRW.protocol_fees ∧
    ((pactAt soloStoreW 0).is_group = false →
     (pactAt soloStoreW 0).challenge = [] → 50 < (pactAt soloStoreW 0).start_balance →
       soloStoreRW.protocol_fees = soloStoreW.protocol_fees +
         ((pactAt soloStoreW 0).stake_amount -
           (pactAt soloStoreW 0).stake_amount *
             SLASH_PERCENTAGE_RETURNED / 100)) :=
  c2_conservation_amended 100 7 0 50 [] soloStoreW soloStoreRW
    [(7, 1000000)]
    (Reach.step initStore soloStoreW Reach.init
      (Step.create 0 7 3 10 1000000 100 initStore soloStoreW [] rfl))
    (by decide) rfl

/-- The store used to refute C2 as stated: a reachable store holding a
challenged group pact (one member staking 1000000, challenger 2 staking
1000000 — `challenge_pact` never checks `is_group`). -/
def c2CexMid : Store :=
  { initialized := true, pact_counter := 1, protocol_fees := 0,
    pacts := [{ creator := 1, token_address := 0, start_balance := 10,
                stake_amount := 1000000, deadline := 100, status := 0,
                escrowed_stake := 0, challenge := [], is_group := true,
                max_group_size := 2,
                group_members := [{ member := 1, stake_amount := 1000000,
                                    escrowed_stake := 1000000,
                                    start_balance := 10 }] }] }

def c2CexStore : Store :=
  { initialized := true, pact_counter := 1, protocol_fees := 0,
    pacts := [{ creator := 1, token_address := 0, start_balance := 10,
                stake_amount := 1000000, deadline := 100, status := 0,
                escrowed_stake := 0,
                challenge := [{ challenger := 2, challenge_stake := 1000000,
                                escrowed_challenge := 1000000 }],
                is_group := true, max_group_size := 2,
                group_members := [{ member := 1, stake_amount := 1000000,
                                    escrowed_stake := 1000000,
                                    start_balance := 10 }] }] }

def c2CexResStore : Store :=
  { initialized := true, pact_counter := 1, protocol_fees := 0,
    pacts := [{ creator := 1, token_address := 0, start_balance := 10,
                stake_amount := 1000000, deadline := 100, status := 1,
                escrowed_stake := 0,
                challenge := [{ challenger := 2, challenge_stake := 1000000,
                                escrowed_challenge := 1000000 }],
                is_group := true, max_group_size := 2,
                group_members := [{ member := 1, stake_amount := 1000000,
                                    escrowed_stake := 0,
                                    start_balance := 10 }] }] }

/-- **Counterexample to C2 as stated.** In the reachable store
`c2CexStore` (created by `create_group_pact`, then challenged before the
deadline), resolving the group pact at the deadline disburses only the
member's 1000000 and adds nothing to the fee pool, while the total
escrow at resolution time is 2000000 — the challenger's 1000000 stays
locked in the resolved pact's challenge slot forever. Conservation, as
claimed for every resolution, is violated. -/
theorem c2_conservation_cex :
    Reach c2CexStore ∧
    resolve_pact 100 1 0 0 [10] c2CexStore =
      .ok (c2CexResStore, [(1, 1000000)]) ∧
    depositsTotal [(1, 1000000)] + c2CexResStore.protocol_fees ≠
      escrowTotal (pactAt c2CexStore 0) + c2CexStore.protocol_fees :=
  ⟨Reach.step c2CexMid c2CexStore
     (Reach.step initStore c2CexMid Reach.init
       (Step.create_group 0 1 0 10 1000000 100 2 initStore c2CexMid []
         rfl))
     (Step.challenge 50 2 1 0 1000000 c2CexMid c2CexStore [] rfl),
   rfl, by decide⟩

/-! ## C7 (amended): challenge preconditions and at-most-one challenge -/

/-- **C7 (amended).** `challenge_pact` succeeds only when the target
pact exists, is Active, the current time is strictly before the
deadline, no challenge is already attached, the challenger is not the
creator, and the stake meets the minimum (and a success itself deposits
nothing — it only escrows the challenger's stake); consequently at most
one challenge ever attaches to a pact: any attempt against an
already-challenged pact fails (moving no funds), and when the remaining
preconditions hold it fails precisely with
`error::invalid_state E_ALREADY_CHALLENGED`. (As stated the claim is
falsified by check order: a second attempt below the minimum stake is
rejected with `E_INSUFFICIENT_STAKE` before the already-challenged check
runs — see the counterexample.) -/
theorem c7_challenge_preconditions :
    (∀ (now ch ca i st : Nat) (s s' : Store) (ds : List Deposit),
       challenge_pact now ch ca i st s = .ok (s', ds) →
       i < s.pacts.length ∧ (pactAt s i).status = STATUS_ACTIVE ∧
       now < (pactAt s i).deadline ∧ (pactAt s i).challenge = [] ∧
       ch ≠ ca ∧ MINIMUM_STAKE ≤ st ∧ ds = []) ∧
    (∀ (now ch ca i st : Nat) (s : Store),
       (pactAt s i).challenge ≠ [] →
       ∀ (s' : Store) (ds : List Deposit),
         challenge_pact now ch ca i st s ≠ .ok (s', ds)) ∧
    (∀ (now ch ca i st : Nat) (s : Store), i < s.pacts.length →
       MINIMUM_STAKE ≤ st → ch ≠ ca →
       (pactAt s i).status = STATUS_ACTIVE →
       now < (pactAt s i).deadline → (pactAt s i).challenge ≠ [] →
       challenge_pact now ch ca i st s =
         .error (.abortCode (errInvalidState E_ALREADY_CHALLENGED))) := by
  have hA : ∀ (now ch ca i st : Nat) (s s' : Store) (ds : List Deposit),
      challenge_pact now ch ca i st s = .ok (s', ds) →
      i < s.pacts.length ∧ (pactAt s i).status = STATUS_ACTIVE ∧
      now < (pactAt s i).deadline ∧ (pactAt s i).challenge = [] ∧
      ch ≠ ca ∧ MINIMUM_STAKE ≤ st ∧ ds = [] := by
    intro now ch ca i st s s' ds h
    simp only [challenge_pact, pactAt] at h ⊢
    split_ifs at h with h1 h2 h3 h4 h5 h6 h7
    injection h with h
    injection h with _ hds
    exact ⟨h4, h5, h6, List.length_eq_zero.mp h7, h3, h2, hds.symm⟩
  refine ⟨hA, ?_, ?_⟩
  · intro now ch ca i st s hch s' ds hok
    exact absurd (hA now ch ca i st s s' ds hok).2.2.2.1 hch
  · intro now ch ca i st s hlen hst hne hact hdl hch
    have hpne : s.pacts ≠ [] := by
      intro h0
      rw [h0] at hlen
      simp at hlen
    have hchlen : ¬ ((pactAt s i).challenge.length = 0) := by
      intro h0
      exact hch (List.length_eq_zero.mp h0)
    simp only [challenge_pact, pactAt] at *
    rw [if_pos hpne, if_pos hst, if_pos hne, if_pos hlen, if_pos hact,
      if_pos hdl, if_neg hchlen]

theorem c7_challenge_preconditions_witness :
    (0 < chalStoreW.pacts.length ∧
      (pactAt chalStoreW 0).status = STATUS_ACTIVE ∧
      50 < (pactAt chalStoreW 0).deadline ∧
      (pactAt soloStoreW 0).challenge = [] ∧ (9 : Nat) ≠ 7 ∧
      MINIMUM_STAKE ≤ 2000000 ∧ ([] : List Deposit) = []) ∧
    challenge_pact 50 3 7 0 1000000 chalStoreW =
      .error (.abortCode (errInvalidState E_ALREADY_CHALLENGED)) := by
  have h := (c7_challenge_preconditions.1 50 9 7 0 2000000 soloStoreW
    chalStoreW [] rfl)
  exact ⟨⟨by decide, by decide, by decide, h.2.2.2.1, by decide, h.2.2.2.2.2.1,
      rfl⟩,
    c7_challenge_preconditions.2.2 50 3 7 0 1000000 chalStoreW (by decide)
      (by decide) (by decide) (by decide) (by decide) (by decide)⟩

/-- **Counterexample to C7 as stated.** `chalStoreW` is reachable
(create, then challenge by address 9) and already challenged; a second
challenge attempt with stake 0 fails with
`error::invalid_argument E_INSUFFICIENT_STAKE` — not with the
already-challenged error, because the minimum-stake check runs first
(source line 490 precedes line 501). -/
theorem c7_second_attempt_cex :
    Reach chalStoreW ∧
    (pactAt chalStoreW 0).challenge ≠ [] ∧
    challenge_pact 60 3 7 0 0 chalStoreW =
      .error (.abortCode (errInvalidArgument E_INSUFFICIENT_STAKE)) ∧
    errInvalidArgument E_INSUFFICIENT_STAKE ≠
      errInvalidState E_ALREADY_CHALLENGED :=
  ⟨Reach.step soloStoreW chalStoreW
     (Reach.step initStore soloStoreW Reach.init
       (Step.create 0 7 3 10 1000000 100 initStore soloStoreW [] rfl))
     (Step.challenge 50 9 7 0 2000000 soloStoreW chalStoreW [] rfl),
   by decide, rfl, by decide⟩

end PactModule
